import Mathlib

namespace ShopifySync

/-!
Verification of the shopify-sync synchronization and reconciliation
subsystem.  The Python source is shallowly embedded: SQLAlchemy tables
become lists of records, timestamps become integers (seconds), raw JSON
payloads become a `Payload` record that keeps every field the code ever
reads plus an opaque remainder (`variants`), and each service function is
translated into a pure Lean function over that state.
-/

/-- A remote catalog-item payload as delivered by the Shopify REST API.
Mirrors the dict consumed by `parse_shopify_product`
(app/services/product_sync.py).  Timestamp fields are `Option Int`:
`none` models a field that is absent or fails `datetime.fromisoformat`
(the code treats both identically), `some t` a field parsing to time `t`
in seconds.  `variants` stands for the remainder of the raw JSON that is
only ever stored verbatim in `raw_data` (e.g. the variants array). -/

structure Payload where
  id : Nat
  title : Option String := none
  vendor : Option String := none
  product_type : Option String := none
  handle : Option String := none
  status : Option String := none
  created_at : Option Int := none
  updated_at : Option Int := none
  published_at : Option Int := none
  variants : List Nat := []
deriving Repr, DecidableEq

/-- Result of `parse_shopify_product` (app/services/product_sync.py
lines 12-42): the normalized projection fields plus the payload kept
verbatim in `raw_data`. -/

structure ParsedProduct where
  shopify_product_id : Nat
  title : Option String
  vendor : Option String
  product_type : Option String
  handle : Option String
  status : Option String
  shopify_created_at : Option Int
  shopify_updated_at : Option Int
  published_at : Option Int
  raw_data : Payload
deriving Repr, DecidableEq

/-- `parse_shopify_product` (app/services/product_sync.py lines 12-42). -/

def parse_shopify_product (product_data : Payload) : ParsedProduct :=
  { shopify_product_id := product_data.id
    title := product_data.title
    vendor := product_data.vendor
    product_type := product_data.product_type
    handle := product_data.handle
    status := product_data.status
    shopify_created_at := product_data.created_at
    shopify_updated_at := product_data.updated_at
    published_at := product_data.published_at
    raw_data := product_data }

/-- A row of the `products` table (app/models.py `Product`).
`shopify_product_id` carries a global unique index.
Modelled from the spec: the soft-delete columns `is_deleted` (0 = active,
1 = soft-deleted) and `deleted_at` are referenced throughout the services
and routers but missing from the `models.py` shipped in `src/`; per the
spec's CatalogItem data model a row carries "a soft-delete flag with
deletion timestamp", new rows start active, and soft-deleted rows are
excluded from all active queries. -/

structure ProductRow where
  shopify_product_id : Nat
  merchant_id : Nat
  title : Option String
  vendor : Option String
  product_type : Option String
  handle : Option String
  status : Option String
  shopify_created_at : Option Int
  shopify_updated_at : Option Int
  published_at : Option Int
  raw_data : Payload
  synced_at : Int
  created_at_local : Int
  updated_at_local : Option Int
  is_deleted : Nat
  deleted_at : Option Int
deriving Repr, DecidableEq

/-- The `products` table: a list of rows.  The uniqueness of
`shopify_product_id` (a unique index in the model) is carried as a
hypothesis where a theorem needs it. -/

abbrev ProductDB := List ProductRow

/-- The `ON CONFLICT DO UPDATE` set-clause of `upsert_product`
(app/services/product_sync.py lines 64-79): overwrites the projected
fields, the verbatim raw payload and the synced/updated timestamps of the
conflicting row, nothing else. -/

def conflictUpdate (now : Int) (d : ParsedProduct) (r : ProductRow) : ProductRow :=
  { r with
    title := d.title
    vendor := d.vendor
    product_type := d.product_type
    handle := d.handle
    status := d.status
    shopify_created_at := d.shopify_created_at
    shopify_updated_at := d.shopify_updated_at
    published_at := d.published_at
    raw_data := d.raw_data
    synced_at := now
    updated_at_local := some now }

/-- The row inserted by `upsert_product` when no row with this
`shopify_product_id` exists: the parsed values plus the column defaults
(`synced_at`/`created_at` server defaults, `updated_at` null until the
first update; `is_deleted = 0` and `deleted_at` null are the
spec-modelled defaults of the soft-delete columns). -/

def newRow (now : Int) (mid : Nat) (d : ParsedProduct) : ProductRow :=
  { shopify_product_id := d.shopify_product_id
    merchant_id := mid
    title := d.title
    vendor := d.vendor
    product_type := d.product_type
    handle := d.handle
    status := d.status
    shopify_created_at := d.shopify_created_at
    shopify_updated_at := d.shopify_updated_at
    published_at := d.published_at
    raw_data := d.raw_data
    synced_at := now
    created_at_local := now
    updated_at_local := none
    is_deleted := 0
    deleted_at := none }

/-- `upsert_product` (app/services/product_sync.py lines 45-90):
`INSERT ... ON CONFLICT (shopify_product_id) DO UPDATE`.  The conflict
target is the global unique index on `shopify_product_id`, so the lookup
ignores the merchant.  `upsertParsed` is the statement applied to the
already-parsed data. -/

def upsertParsed (now : Int) (mid : Nat) (d : ParsedProduct)
    (db : ProductDB) : ProductDB :=
  if db.any (fun r => r.shopify_product_id == d.shopify_product_id) then
    db.map (fun r =>
      if r.shopify_product_id == d.shopify_product_id then
        conflictUpdate now d r
      else r)
  else
    db ++ [newRow now mid d]

/-- `upsert_product` = parse, then the atomic insert-or-update. -/

def upsert_product (now : Int) (mid : Nat) (product_data : Payload)
    (db : ProductDB) : ProductDB :=
  upsertParsed now mid (parse_shopify_product product_data) db

/-- The row currently stored for a remote product ID (the unique-index
lookup `db.query(Product).filter(Product.shopify_product_id == pid)`). -/

def rowFor (db : ProductDB) (pid : Nat) : Option ProductRow :=
  db.find? (fun r => r.shopify_product_id == pid)

/-- Whether the remote ID `pid` is a locally active (non-soft-deleted)
catalog item of merchant `mid` (the filter
`merchant_id == mid, is_deleted == 0` used by the active queries). -/

def isActiveFor (mid pid : Nat) (db : ProductDB) : Bool :=
  match rowFor db pid with
  | some r => r.merchant_id == mid && r.is_deleted == 0
  | none => false

/-- The columns the `ON CONFLICT DO UPDATE` clause of `upsert_product`
does not list: row identity, owning tenant, soft-delete state, creation
time. -/

def frameFields (r : ProductRow) : Nat × Nat × Nat × Option Int × Int :=
  (r.shopify_product_id, r.merchant_id, r.is_deleted, r.deleted_at,
    r.created_at_local)

/-! Lookup and counting lemmas for the upsert primitive. -/

/-- Number of rows stored for a remote product ID. -/

def countId (db : ProductDB) (pid : Nat) : Nat :=
  db.countP (fun r => r.shopify_product_id == pid)

/-! `sync_products` (app/services/product_sync.py lines 93-136) and the
paginated bulk fetch (lines 181-309). -/

/-- One element of a batch handed to `sync_products`.  `good p` is a
payload whose upsert succeeds; `bad` is an item whose per-item
processing raises (malformed payload, storage error), which the
function's per-item `try/except` turns into a `failed_count` increment. -/

inductive SyncItem where
  | good (p : Payload)
  | bad
deriving Repr, DecidableEq

def isGoodItem : SyncItem → Bool
  | .good _ => true
  | .bad => false

/-- The statistics dict built by `sync_products`. -/

structure SyncStats where
  synced_count : Nat
  created_count : Nat
  updated_count : Nat
  failed_count : Nat
deriving Repr, DecidableEq

/-- One iteration of the `sync_products` loop: check whether the row
already exists (to classify created vs updated), upsert, bump the
counters; a raising item only bumps `failed_count` and the loop
continues. -/

def syncStep (now : Int) (mid : Nat) (acc : SyncStats × ProductDB)
    (item : SyncItem) : SyncStats × ProductDB :=
  match item with
  | .bad => ({ acc.1 with failed_count := acc.1.failed_count + 1 }, acc.2)
  | .good p =>
      let is_update := (rowFor acc.2 p.id).isSome
      ({ acc.1 with
          synced_count := acc.1.synced_count + 1
          created_count := acc.1.created_count + (if is_update then 0 else 1)
          updated_count := acc.1.updated_count + (if is_update then 1 else 0) },
        upsert_product now mid p acc.2)

/-- `sync_products` (app/services/product_sync.py lines 93-136). -/

def sync_products (now : Int) (mid : Nat) (items : List SyncItem)
    (db : ProductDB) : SyncStats × ProductDB :=
  items.foldl (syncStep now mid) (⟨0, 0, 0, 0⟩, db)

/-! The paginated full-catalog fetch
(`fetch_all_products_from_shopify`, app/services/product_sync.py lines
181-309).  The remote side is modelled as the trace of successive page
fetches: each page either yields a list of items or raises an HTTP
error. -/

inductive PageResult where
  | ok (items : List SyncItem)
  | err (e : String)
deriving Repr, DecidableEq

/-- The statistics dict of `fetch_all_products_from_shopify`. -/

structure FetchStats where
  status : String
  total_products : Nat
  synced_count : Nat
  created_count : Nat
  updated_count : Nat
  failed_count : Nat
  pages_fetched : Nat
  error : Option String
deriving Repr, DecidableEq

/-- The `while True` pagination loop body (lines 236-289): on an HTTP
error set status to `partial` (or `failed` when nothing was synced yet),
record the error and break; otherwise count the page, stop on an empty
page, sync the batch, aggregate, and stop when the page was shorter than
the 250-item limit.  If the trace runs out the accumulated state is
returned as is (the loop would request a further page). -/

def fetchPagesLoop (now : Int) (mid : Nat) :
    List PageResult → FetchStats → ProductDB → FetchStats × ProductDB
  | [], stats, db => (stats, db)
  | .err e :: _, stats, db =>
      ({ stats with
          status := if stats.synced_count > 0 then "partial" else "failed"
          error := some ("HTTP error: " ++ e) }, db)
  | .ok items :: rest, stats, db =>
      let stats1 := { stats with pages_fetched := stats.pages_fetched + 1 }
      if items.isEmpty then (stats1, db)
      else
        let bd := sync_products now mid items db
        let stats2 := { stats1 with
          synced_count := stats1.synced_count + bd.1.synced_count
          created_count := stats1.created_count + bd.1.created_count
          updated_count := stats1.updated_count + bd.1.updated_count
          failed_count := stats1.failed_count + bd.1.failed_count
          total_products := stats1.total_products + items.length }
        if items.length < 250 then (stats2, bd.2)
        else fetchPagesLoop now mid rest stats2 bd.2

/-- The final-status block (lines 294-300), executed after the loop has
ended for any reason: it recomputes `status` from the item-level
counters alone, overwriting whatever the page-error handler stored. -/

def finalStatus (stats : FetchStats) : String :=
  if stats.failed_count > 0 ∧ stats.synced_count = 0 then "failed"
  else if stats.failed_count > 0 then "partial"
  else "completed"

/-- `fetch_all_products_from_shopify`
(app/services/product_sync.py lines 181-309). -/

def fetch_all_products_from_shopify (now : Int) (mid : Nat)
    (pages : List PageResult) (db : ProductDB) : FetchStats × ProductDB :=
  let init : FetchStats :=
    { status := "completed", total_products := 0, synced_count := 0,
      created_count := 0, updated_count := 0, failed_count := 0,
      pages_fetched := 0, error := none }
  let res := fetchPagesLoop now mid pages init db
  ({ res.1 with status := finalStatus res.1 }, res.2)

/-! The reconciliation engine
(app/services/product_reconciliation.py). -/

/-- The projection applied by
`fetch_all_products_from_shopify_for_reconciliation` (lines 196-253):
the request carries the query parameter restricting the response to
`id,title,updated_at`, so every returned payload holds only those
fields. -/

def reconFields (p : Payload) : Payload :=
  { id := p.id, title := p.title, updated_at := p.updated_at }

/-- `fetch_all_products_from_shopify_for_reconciliation`
(app/services/product_reconciliation.py lines 196-253): pages through the
catalog requesting only `id,title,updated_at`; on any error it returns
`None`, discarding everything accumulated.  `remote` is the remote
catalog of full payloads when reachable, `none` when any page fetch
fails. -/

def fetch_all_products_from_shopify_for_reconciliation
    (remote : Option (List Payload)) : Option (List Payload) :=
  match remote with
  | none => none
  | some ps => some (ps.map reconFields)

/-- Building `shopify_product_map = {p['id']: p for p in products}`:
a later payload with a duplicate id overwrites the earlier entry. -/

def dictInsert (m : List (Nat × Payload)) (p : Payload) :
    List (Nat × Payload) :=
  if m.any (fun kv => kv.1 == p.id) then
    m.map (fun kv => if kv.1 == p.id then (kv.1, p) else kv)
  else m ++ [(p.id, p)]

def buildProductMap (ps : List Payload) : List (Nat × Payload) :=
  ps.foldl dictInsert []

def lookupMap (m : List (Nat × Payload)) (pid : Nat) : Option Payload :=
  (m.find? (fun kv => kv.1 == pid)).map (fun kv => kv.2)

/-- The result dict of `reconcile_products`. -/

structure ReconcileResults where
  status : String
  products_in_shopify : Nat
  products_in_database : Nat
  missing_in_db : Nat
  missing_in_db_product_ids : List Nat
  deleted_in_shopify : Nat
  deleted_in_shopify_product_ids : List Nat
  out_of_sync : Nat
  out_of_sync_product_ids : List Nat
  synced_count : Nat
  marked_deleted_count : Nat
  error : Option String
  message : Option String
deriving Repr, DecidableEq

/-- The soft-delete write of step 4 (lines 126-128): sets the
soft-delete flag, the lifecycle status and the deletion timestamp. -/

def markUpd (now : Int) (r : ProductRow) : ProductRow :=
  { r with
    is_deleted := 1
    status := some "deleted"
    deleted_at := some now }

/-- Marking one product deleted (lines 123-131): applies `markUpd` to
the row holding this remote ID. -/

def markRowDeleted (now : Int) (db : ProductDB) (pid : Nat) : ProductDB :=
  db.map (fun r =>
    if r.shopify_product_id == pid then markUpd now r else r)

/-- One iteration of the repair loops of steps 3 and 5: look the id up
in the fetched product map and upsert the payload (a per-item exception
is only printed, and in this exception-free model every upsert
succeeds). -/

def syncStepFromMap (now : Int) (mid : Nat) (m : List (Nat × Payload))
    (acc : ProductDB) (pid : Nat) : ProductDB :=
  match lookupMap m pid with
  | some p => upsert_product now mid p acc
  | none => acc

/-- Upserting every listed remote ID from the fetched product map. -/

def syncIdsFromMap (now : Int) (mid : Nat) (m : List (Nat × Payload))
    (ids : List Nat) (db : ProductDB) : ProductDB :=
  ids.foldl (syncStepFromMap now mid m) db

/-- The out-of-sync test of step 5 (lines 135-167): both timestamps must
be present and parse, and differ by more than one second; otherwise the
product is skipped.  `dbProducts` is the active-row snapshot captured in
step 2. -/

def outOfSyncCond (m : List (Nat × Payload)) (dbProducts : ProductDB)
    (pid : Nat) : Bool :=
  match lookupMap m pid with
  | none => false
  | some p =>
    match p.updated_at with
    | none => false
    | some t =>
      match rowFor dbProducts pid with
      | none => false
      | some r =>
        match r.shopify_updated_at with
        | none => false
        | some t2 => (t - t2).natAbs > 1

/-- The all-zero result the function starts from (lines 58-71). -/

def emptyReconcileResults : ReconcileResults :=
  { status := "completed", products_in_shopify := 0,
    products_in_database := 0, missing_in_db := 0,
    missing_in_db_product_ids := [], deleted_in_shopify := 0,
    deleted_in_shopify_product_ids := [], out_of_sync := 0,
    out_of_sync_product_ids := [], synced_count := 0,
    marked_deleted_count := 0, error := none, message := none }

/-- Step 2 (lines 92-95): the merchant's active rows. -/

def activeRows (mid : Nat) (db : ProductDB) : ProductDB :=
  db.filter (fun r => r.merchant_id == mid && r.is_deleted == 0)

def activeIds (mid : Nat) (db : ProductDB) : List Nat :=
  (activeRows mid db).map (fun r => r.shopify_product_id)

def shopifyKeys (sp : List Payload) : List Nat :=
  (buildProductMap sp).map (fun kv => kv.1)

/-- Step 3 (line 104): `shopify_product_ids - db_product_ids`. -/

def missingIdsOf (sp : List Payload) (mid : Nat) (db : ProductDB) :
    List Nat :=
  (shopifyKeys sp).filter (fun pid => !((activeIds mid db).contains pid))

/-- Step 4 (line 117): `db_product_ids - shopify_product_ids`. -/

def deletedIdsOf (sp : List Payload) (mid : Nat) (db : ProductDB) :
    List Nat :=
  (activeIds mid db).filter (fun pid => !((shopifyKeys sp).contains pid))

/-- Step 5 (lines 135-167): the ids of the intersection that fail the
one-second timestamp check. -/

def outIdsOf (sp : List Payload) (mid : Nat) (db : ProductDB) : List Nat :=
  ((shopifyKeys sp).filter (fun pid => (activeIds mid db).contains pid)).filter
    (outOfSyncCond (buildProductMap sp) (activeRows mid db))

/-- The table after the three repair phases of `reconcile_products`:
sync the missing products, mark the remotely-deleted ones when asked to,
re-upsert the out-of-sync ones. -/

def reconcileDb (now : Int) (mid : Nat) (mark_deleted : Bool)
    (sp : List Payload) (db : ProductDB) : ProductDB :=
  syncIdsFromMap now mid (buildProductMap sp) (outIdsOf sp mid db)
    (if mark_deleted && !(deletedIdsOf sp mid db).isEmpty then
      (deletedIdsOf sp mid db).foldl (markRowDeleted now)
        (syncIdsFromMap now mid (buildProductMap sp)
          (missingIdsOf sp mid db) db)
    else
      syncIdsFromMap now mid (buildProductMap sp)
        (missingIdsOf sp mid db) db)

/-- Steps 2-6 of `reconcile_products` (lines 85-186), applied to the
already-fetched lightweight catalog.  Set iteration order is modelled as
the product map's insertion order. -/

def reconcileCore (now : Int) (mid : Nat) (mark_deleted : Bool)
    (shopify_products : List Payload) (db : ProductDB) :
    ReconcileResults × ProductDB :=
  let missing := missingIdsOf shopify_products mid db
  let deletedIds := deletedIdsOf shopify_products mid db
  let outIds := outIdsOf shopify_products mid db
  let markedCount := if mark_deleted && !deletedIds.isEmpty then
      deletedIds.length
    else 0
  let synced := missing.length + outIds.length
  let stmsg : String × Option String :=
    if synced == 0 && markedCount == 0 then
      if missing.length == 0 && outIds.length == 0 then
        ("completed", some "All products are in sync")
      else
        ("failed", some "Reconciliation found issues but failed to fix them")
    else ("completed", some "Reconciliation completed")
  ({ status := stmsg.1
     products_in_shopify := shopify_products.length
     products_in_database := (activeRows mid db).length
     missing_in_db := missing.length
     missing_in_db_product_ids := missing
     deleted_in_shopify := deletedIds.length
     deleted_in_shopify_product_ids := deletedIds
     out_of_sync := outIds.length
     out_of_sync_product_ids := outIds
     synced_count := synced
     marked_deleted_count := markedCount
     error := none
     message := stmsg.2 },
    reconcileDb now mid mark_deleted shopify_products db)

/-- `reconcile_products` (app/services/product_reconciliation.py lines
11-193): fetch the lightweight catalog, then diff and repair.  `remote`
is the remote catalog (`none` when the fetch fails). -/

def reconcile_products (now : Int) (mid : Nat) (mark_deleted : Bool)
    (remote : Option (List Payload)) (db : ProductDB) :
    ReconcileResults × ProductDB :=
  match fetch_all_products_from_shopify_for_reconciliation remote with
  | none =>
      ({ emptyReconcileResults with
          status := "failed"
          error := some "Failed to fetch products from Shopify" }, db)
  | some shopify_products => reconcileCore now mid mark_deleted
      shopify_products db

/-- A full remote payload (all projected fields and a variants array)
whose remote `updated_at` (100) is far newer than the locally stored one
(0). -/

def pfullRemote : Payload :=
  { id := 1, title := some "Tee", vendor := some "Acme",
    product_type := some "Shirt", handle := some "tee",
    status := some "active", created_at := some 0, updated_at := some 100,
    published_at := some 0, variants := [5] }

/-- The same product as the local replica last saw it. -/

def pfullLocal : Payload := { pfullRemote with updated_at := some 0 }

/-! Supporting lemmas for the reconciliation active-set theorem. -/

/-- Invariant of the fetched product map: every entry's payload carries
the entry's key as its id. -/

def mapKeyInv (m : List (Nat × Payload)) : Prop :=
  ∀ kv ∈ m, kv.2.id = kv.1

/-! The credential vault (app/utils/encryption.py).  The Fernet cipher
is external library code; it is modelled as an abstract pair of
functions, and its round-trip property is a hypothesis where needed. -/

structure TokenCipher where
  enc : String → String
  dec : String → Option String

/-- `TokenEncryption.encrypt` (app/utils/encryption.py lines 37-51): a
falsy (empty) plaintext is returned unchanged without invoking the
cipher; otherwise the cipher output is returned. -/

def TokenEncryption.encrypt (c : TokenCipher) (plaintext : String) :
    String :=
  if plaintext = "" then plaintext else c.enc plaintext

/-- `TokenEncryption.decrypt` (app/utils/encryption.py lines 53-70): a
falsy input is returned unchanged without invoking the cipher; a cipher
failure is re-raised as a `ValueError` (`Except.error`). -/

def TokenEncryption.decrypt (c : TokenCipher) (encrypted_text : String) :
    Except String String :=
  if encrypted_text = "" then .ok encrypted_text
  else
    match c.dec encrypted_text with
    | some s => .ok s
    | none => .error "Failed to decrypt token"

/-! OAuth callback signature verification
(`ShopifyOAuth.verify_hmac`, app/services/shopify_oauth.py lines
46-87).  The HMAC-SHA256 computation is external library code
(`hmac`/`hashlib`) and is a parameter of the embedding; the
canonicalization around it is the repository's code. -/

/-- The characters `urllib.parse.quote` never encodes: ASCII letters,
digits and `_.-~` (with `safe=''` everything else is percent-encoded). -/

def isQuoteSafe (c : Char) : Bool :=
  c.isAlphanum || c = '_' || c = '.' || c = '-' || c = '~'

/-- UTF-8 bytes of one character (quote encodes non-safe characters
byte by byte). -/

def utf8Bytes (c : Char) : List Nat :=
  let n := c.toNat
  if n < 0x80 then [n]
  else if n < 0x800 then [0xC0 + n / 0x40, 0x80 + n % 0x40]
  else if n < 0x10000 then
    [0xE0 + n / 0x1000, 0x80 + (n / 0x40) % 0x40, 0x80 + n % 0x40]
  else
    [0xF0 + n / 0x40000, 0x80 + (n / 0x1000) % 0x40,
      0x80 + (n / 0x40) % 0x40, 0x80 + n % 0x40]

/-- Uppercase hexadecimal digit, as `quote` produces. -/

def hexDigit (n : Nat) : Char :=
  if n < 10 then Char.ofNat (48 + n) else Char.ofNat (55 + n)

def percentByte (b : Nat) : String :=
  String.mk ['%', hexDigit (b / 16), hexDigit (b % 16)]

/-- `urllib.parse.quote(s, safe='')`. -/

def pythonQuote (s : String) : String :=
  s.data.foldl (fun acc c =>
    if isQuoteSafe c then acc.push c
    else acc ++ String.join ((utf8Bytes c).map percentByte)) ""

/-- Stable insertion of one element into a sorted list. -/

def insertSorted (le : α → α → Bool) (x : α) : List α → List α
  | [] => [x]
  | y :: ys => if le x y then x :: y :: ys else y :: insertSorted le x ys

/-- Python's `sorted`, as insertion sort (ties cannot arise here: the
verification theorem assumes the parameter keys are unique, as dict keys
are). -/

def sortBy (le : α → α → Bool) (l : List α) : List α :=
  l.foldr (insertSorted le) []

/-- Python's `<` on (key, value) string tuples, as `sorted` compares
the dict items. -/

def pairLe (a b : String × String) : Bool :=
  decide (a.1 < b.1) || (decide (a.1 = b.1) && decide (a.2 ≤ b.2))

/-- Comparison of items by key only. -/

def keyLe (a b : String × String) : Bool :=
  decide (a.1 ≤ b.1)

/-- Dict lookup over the parameter set. -/

def paramsLookup (params : List (String × String)) (k : String) :
    Option String :=
  (params.find? (fun kv => kv.1 == k)).map (fun kv => kv.2)

/-- `ShopifyOAuth.verify_hmac` (app/services/shopify_oauth.py lines
46-87): no `hmac` parameter → `false`; otherwise pop the `hmac` entry,
sort the remaining items (Python sorts the (key, value) tuples), join
`key=quote(value)` with `&`, HMAC-SHA256 the canonical string under the
app secret (hex digest), and compare with `hmac.compare_digest` —
modelled as plain string equality, its constant-time execution having no
shallow embedding. -/

def sourceCanonicalString (params : List (String × String)) : String :=
  String.intercalate "&"
    ((sortBy pairLe (params.filter (fun kv => !(kv.1 == "hmac")))).map
      (fun kv => kv.1 ++ "=" ++ pythonQuote kv.2))

def verify_hmac (hmacHex : String → String → String) (secret : String)
    (params : List (String × String)) : Bool :=
  match paramsLookup params "hmac" with
  | none => false
  | some hmac_to_verify =>
      hmacHex secret (sourceCanonicalString params) == hmac_to_verify

/-- The canonical string as the spec words it: remove the signature
field itself, sort the KEYS lexicographically, URL-encode each remaining
value, join as key=value pairs with '&'. -/

def specCanonicalString (params : List (String × String)) : String :=
  String.intercalate "&"
    ((sortBy (fun a b => decide (a ≤ b))
        ((params.map (fun kv => kv.1)).filter (fun k => !(k == "hmac")))).map
      (fun k => k ++ "=" ++ pythonQuote ((paramsLookup params k).getD "")))

/-! The OAuth completion endpoint (`complete_oauth`,
app/routers/oauth.py lines 100-262).  The store table is the state; the
shop-info fetch, webhook registration and background product sync follow
the commit, touch other tables only, and cannot alter this endpoint's
decision, so they are omitted from the state. -/

/-- Python's `int(str)`: optional surrounding whitespace, optional sign,
at least one decimal digit; anything else raises `ValueError`
(`none`). -/

def pythonInt (s : String) : Option Int :=
  match ((s.data.dropWhile Char.isWhitespace).reverse.dropWhile
      Char.isWhitespace).reverse with
  | [] => none
  | c :: rest =>
    let signed : Int × List Char :=
      if c = '-' then (-1, rest)
      else if c = '+' then (1, rest)
      else (1, c :: rest)
    if (!signed.2.isEmpty) && signed.2.all Char.isDigit then
      some (signed.1 *
        (signed.2.foldl (fun acc ch => acc * 10 + (ch.toNat - 48)) 0 : Nat))
    else none

/-- The request body of `POST /api/oauth/complete` (`OAuthComplete`). -/

structure OAuthComplete where
  code : String
  shop : String
  merchant_id : String
  hmac : String
  timestamp : String
  host : Option String
deriving Repr, DecidableEq

/-- A row of the store table (`ShopifyStore`); `access_token` is the
decrypted view of the stored credential. -/

structure StoreRow where
  id : Nat
  merchant_id : String
  shop_domain : String
  access_token : Option String
  scope : Option String
  is_active : Nat
  updated_at : Option Int
deriving Repr, DecidableEq

/-- The `HTTPException`s the endpoint raises. -/

inductive OAuthErr where
  | timestampExpired
  | timestampInvalid
  | invalidHmac
  | duplicateCompletion
  | invalidCode
  | exchangeFailed (msg : String)
deriving Repr, DecidableEq

structure TokenData where
  access_token : Option String
  scope : Option String
deriving Repr, DecidableEq

/-- `sanitize_shop_domain` (app/utils/helpers.py): drop the protocol
prefixes and strip surrounding '/'. -/

def sanitize_shop_domain (shop_domain : String) : String :=
  String.mk (((((shop_domain.replace "https://" "").replace "http://"
    "").data.dropWhile (· == '/')).reverse.dropWhile (· == '/')).reverse)

/-- The parameter dict rebuilt for HMAC verification (lines 131-141). -/

def oauthParams (input : OAuthComplete) : List (String × String) :=
  [("code", input.code), ("shop", input.shop),
    ("state", input.merchant_id), ("hmac", input.hmac),
    ("timestamp", input.timestamp)] ++
  (match input.host with
   | some h => [("host", h)]
   | none => [])

/-- The merchant lookup predicate (lines 156-159): match on merchant key
or shop domain. -/

def storeMatch (input : OAuthComplete) (r : StoreRow) : Bool :=
  r.merchant_id == input.merchant_id ||
    r.shop_domain == sanitize_shop_domain input.shop

/-- The duplicate-completion check (lines 161-170): an active merchant
with a usable token whose last update was less than 60 seconds ago. -/

def duplicateCompletionCheck (now : Int) (found : Option StoreRow) :
    Bool :=
  match found with
  | none => false
  | some r =>
      (r.is_active == 1) &&
      (match r.access_token with
       | some t => !(t == "")
       | none => false) &&
      (match r.updated_at with
       | some u => decide (now - u < 60)
       | none => false)

/-- Substring test (Python's `in` on strings). -/

def containsSub (needle hay : String) : Bool :=
  if needle = "" then true else (hay.splitOn needle).length > 1

/-- Classification of a token-exchange failure (lines 189-203). -/

def classifyExchangeError (msg : String) : OAuthErr :=
  if containsSub "400" msg || containsSub "invalid" msg.toLower
      || containsSub "already" msg.toLower then
    OAuthErr.invalidCode
  else OAuthErr.exchangeFailed msg

/-- Replace the first element satisfying `p` (SQLAlchemy mutates the one
fetched row). -/

def updateFirst (p : α → Bool) (f : α → α) : List α → List α
  | [] => []
  | x :: xs => if p x then f x :: xs else x :: updateFirst p f xs

/-- The successful-commit state (lines 172-212): update the found row's
identity and credentials, or insert a fresh active row. -/

def applyOauthSuccess (now : Int) (input : OAuthComplete)
    (token_data : TokenData) (db : List StoreRow) : List StoreRow :=
  if db.any (storeMatch input) then
    updateFirst (storeMatch input) (fun r =>
      { r with
        merchant_id := input.merchant_id
        shop_domain := sanitize_shop_domain input.shop
        access_token := token_data.access_token
        scope := token_data.scope
        is_active := 1
        updated_at := some now }) db
  else
    db ++ [{ id := (db.map (fun r => r.id)).foldl max 0 + 1
             merchant_id := input.merchant_id
             shop_domain := sanitize_shop_domain input.shop
             access_token := token_data.access_token
             scope := token_data.scope
             is_active := 1
             updated_at := some now }]

/-- `complete_oauth` (app/routers/oauth.py lines 100-262): timestamp
window, HMAC verification, duplicate-completion guard, merchant
create-or-update, token exchange (external; its outcome is the
`exchange` parameter), commit — with rollback leaving the table
untouched on exchange failure. -/

def complete_oauth (hmacHex : String → String → String) (secret : String)
    (now : Int) (exchange : Except String TokenData)
    (input : OAuthComplete) (db : List StoreRow) :
    Except OAuthErr Unit × List StoreRow :=
  match pythonInt input.timestamp with
  | none => (.error .timestampInvalid, db)
  | some callback_timestamp =>
    if (now - callback_timestamp).natAbs > 300 then
      (.error .timestampExpired, db)
    else if !(verify_hmac hmacHex secret (oauthParams input)) then
      (.error .invalidHmac, db)
    else if duplicateCompletionCheck now (db.find? (storeMatch input)) then
      (.error .duplicateCompletion, db)
    else
      match exchange with
      | .error msg => (.error (classifyExchangeError msg), db)
      | .ok token_data => (.ok (), applyOauthSuccess now input token_data db)

/-! Webhook subscription registration (`register_webhooks`,
app/services/webhook_manager.py lines 45-209).  The Shopify Admin API
calls are external; their outcomes are the `WebhookApi` parameter
(`get_existing_webhook_by_id` returns `ok none` on 404). -/

structure RemoteHook where
  id : Nat
  topic : String
  address : String
deriving Repr, DecidableEq

structure WebhookApi where
  getById : Nat → Except String (Option RemoteHook)
  getByTopic : String → Except String (Option RemoteHook)
  create : String → String → Except String Nat
  update : Nat → String → String → Except String Unit

/-- A row of the `webhooks` table.
Modelled from the spec: the shipped `models.py` lacks the `store_id`
column the service filters on; per the spec a subscription row carries
its owning tenant reference, topic, delivery address, active flag and
last-verified timestamp. -/

structure WebhookRow where
  store_id : Nat
  merchant_id : String
  shopify_webhook_id : Nat
  topic : String
  address : String
  format : String
  is_active : Nat
  last_verified_at : Option Int
deriving Repr, DecidableEq

/-- One element of the per-topic result array. -/

structure TopicResult where
  topic : String
  action : String
  status : String
  webhook_id : Option Nat
  error : Option String
deriving Repr, DecidableEq

/-- The local lookup of lines 84-88: an active record of this store for
this topic. -/

def webhookActiveMatch (store_id : Nat) (topic : String)
    (w : WebhookRow) : Bool :=
  w.store_id == store_id && w.topic == topic && w.is_active == 1

def failedTopicResult (topic e : String) : TopicResult :=
  ⟨topic, "failed", "error", none, some e⟩

/-- The loop body of `register_webhooks` for one configured topic
(lines 75-207): check the local store first; re-verify an existing
record against Shopify by its remote ID, updating the address or
re-creating the remote webhook as needed; otherwise adopt a remote
webhook found by topic, or create one.  Any raised error is caught
per topic (lines 201-207). -/

def register_webhook_topic (now : Int) (api : WebhookApi)
    (store_id : Nat) (tenant_id : String) (topic address fmt : String)
    (db : List WebhookRow) : TopicResult × List WebhookRow :=
  match db.find? (webhookActiveMatch store_id topic) with
  | some w =>
    match api.getById w.shopify_webhook_id with
    | .error e => (failedTopicResult topic e, db)
    | .ok (some rh) =>
      if rh.address != address then
        match api.update w.shopify_webhook_id topic address with
        | .error e => (failedTopicResult topic e, db)
        | .ok _ =>
          (⟨topic, "updated", "success", some w.shopify_webhook_id, none⟩,
            updateFirst (webhookActiveMatch store_id topic) (fun r =>
              { r with
                address := address
                last_verified_at := some now }) db)
      else
        (⟨topic, "already_exists", "success", some w.shopify_webhook_id,
            none⟩,
          updateFirst (webhookActiveMatch store_id topic) (fun r =>
            { r with last_verified_at := some now }) db)
    | .ok none =>
      match api.create topic address with
      | .error e => (failedTopicResult topic e, db)
      | .ok newId =>
        (⟨topic, "recreated", "success", some newId, none⟩,
          updateFirst (webhookActiveMatch store_id topic) (fun r =>
            { r with
              shopify_webhook_id := newId
              address := address
              is_active := 1
              last_verified_at := some now }) db)
  | none =>
    match api.getByTopic topic with
    | .error e => (failedTopicResult topic e, db)
    | .ok (some existing) =>
      if existing.address != address then
        match api.update existing.id topic address with
        | .error e => (failedTopicResult topic e,
            db ++ [⟨store_id, tenant_id, existing.id, topic,
              existing.address, fmt, 1, some now⟩])
        | .ok _ =>
          (⟨topic, "updated", "success", some existing.id, none⟩,
            db ++ [⟨store_id, tenant_id, existing.id, topic, address,
              fmt, 1, some now⟩])
      else
        (⟨topic, "already_exists", "success", some existing.id, none⟩,
          db ++ [⟨store_id, tenant_id, existing.id, topic,
            existing.address, fmt, 1, some now⟩])
    | .ok none =>
      match api.create topic address with
      | .error e => (failedTopicResult topic e, db)
      | .ok newId =>
        (⟨topic, "created", "success", some newId, none⟩,
          db ++ [⟨store_id, tenant_id, newId, topic, address, fmt, 1,
            some now⟩])

/-- `WEBHOOK_CONFIG` (lines 10-42) with the address pattern resolved
against the app URL. -/

def webhookConfigTopics (appUrl : String) : List (String × String) :=
  [("products/create", appUrl ++ "/api/webhooks/products/create"),
    ("products/update", appUrl ++ "/api/webhooks/products/update"),
    ("products/delete", appUrl ++ "/api/webhooks/products/delete"),
    ("customers/data_request",
      appUrl ++ "/api/webhooks/customers/data_request"),
    ("customers/redact", appUrl ++ "/api/webhooks/customers/redact"),
    ("shop/redact", appUrl ++ "/api/webhooks/shop/redact")]

/-- `register_webhooks` (lines 45-209): the per-topic loop, collecting
one result per configured topic. -/

def register_webhooks (now : Int) (api : WebhookApi) (store_id : Nat)
    (tenant_id : String) (appUrl : String) (db : List WebhookRow) :
    List TopicResult × List WebhookRow :=
  (webhookConfigTopics appUrl).foldl (fun acc cfg =>
    ((register_webhook_topic now api store_id tenant_id cfg.1 cfg.2
        "json" acc.2).1 :: acc.1,
      (register_webhook_topic now api store_id tenant_id cfg.1 cfg.2
        "json" acc.2).2)) ([], db)
  |>.map List.reverse id

/-- C9: when `upsert_product` hits an existing row for the same remote
item ID, its conflict-update writes only the projected fields, raw
payload and synced/updated timestamps; at every position of the table the
row's `shopify_product_id`, `merchant_id`, `is_deleted`, `deleted_at` and
`created_at` are exactly what they were before the call — so no upsert
(webhook-driven, bulk, or reconciliation-driven) can resurrect a
soft-deleted row or transfer a row between tenants. -/

theorem upsert_product_frame (now : Int) (mid : Nat) (p : Payload)
    (db : ProductDB) (i : Nat) (h : i < db.length) :
    (upsert_product now mid p db)[i]?.map frameFields
      = db[i]?.map frameFields := by
  unfold upsert_product upsertParsed
  split
  · rw [List.getElem?_map]
    rw [List.getElem?_eq_getElem h]
    by_cases hm : (db[i]).shopify_product_id
        = (parse_shopify_product p).shopify_product_id
    · simp [hm, conflictUpdate, frameFields]
    · simp [hm]
  · rw [List.getElem?_append, if_pos h]

/-- Witness for `upsert_product_frame`: a soft-deleted row owned by
merchant 3 keeps its identity, owner and soft-delete state across an
upsert of the same remote ID performed on behalf of merchant 5. -/

theorem upsert_product_frame_witness :
    (upsert_product 9 5 { id := 1 }
        [{ newRow 0 3 (parse_shopify_product { id := 1 }) with
            is_deleted := 1, deleted_at := some 2 }])[0]?.map frameFields
      = [{ newRow 0 3 (parse_shopify_product { id := 1 }) with
            is_deleted := 1, deleted_at := some 2 }][0]?.map frameFields :=
  upsert_product_frame 9 5 { id := 1 }
    [{ newRow 0 3 (parse_shopify_product { id := 1 }) with
        is_deleted := 1, deleted_at := some 2 }] 0 (by decide)

theorem conflictUpdate_id (now : Int) (d : ParsedProduct) (r : ProductRow) :
    (conflictUpdate now d r).shopify_product_id = r.shopify_product_id := rfl

/-- `find?` through an update-by-key map, at the updated key, for any
id-preserving update. -/

theorem find?_map_idUpdate (db : ProductDB) (f : ProductRow → ProductRow)
    (hf : ∀ r, (f r).shopify_product_id = r.shopify_product_id) (pid : Nat) :
    (db.map (fun r => if r.shopify_product_id == pid then f r else r)).find?
        (fun r => r.shopify_product_id == pid)
      = (db.find? (fun r => r.shopify_product_id == pid)).map f := by
  induction db with
  | nil => rfl
  | cons r t ih =>
    by_cases hr : r.shopify_product_id = pid
    · have hb : (r.shopify_product_id == pid) = true := by simpa using hr
      have hb2 : ((f r).shopify_product_id == pid) = true := by
        simp [hf, hr]
      simp only [List.map_cons, List.find?, hb, hb2, if_true]
      rfl
    · have hb : (r.shopify_product_id == pid) = false := by simpa using hr
      simp only [List.map_cons, List.find?, hb, Bool.false_eq_true, if_false]
      exact ih

/-- `find?` through an update-by-key map, at any other key. -/

theorem find?_map_idUpdate_other (db : ProductDB) (f : ProductRow → ProductRow)
    (hf : ∀ r, (f r).shopify_product_id = r.shopify_product_id)
    (pid qid : Nat) (hne : qid ≠ pid) :
    (db.map (fun r => if r.shopify_product_id == pid then f r else r)).find?
        (fun r => r.shopify_product_id == qid)
      = db.find? (fun r => r.shopify_product_id == qid) := by
  induction db with
  | nil => rfl
  | cons r t ih =>
    by_cases hr : r.shopify_product_id = pid
    · have hb : (r.shopify_product_id == pid) = true := by simpa using hr
      have hq : ((f r).shopify_product_id == qid) = false := by
        simp [hf, hr, Ne.symm hne]
      have hq2 : (r.shopify_product_id == qid) = false := by
        simp [hr, Ne.symm hne]
      simp only [List.map_cons, List.find?, hb, hq, hq2, if_true,
        Bool.false_eq_true, if_false]
      exact ih
    · have hb : (r.shopify_product_id == pid) = false := by simpa using hr
      by_cases hq : r.shopify_product_id = qid
      · have hqb : (r.shopify_product_id == qid) = true := by simpa using hq
        simp only [List.map_cons, List.find?, hb, hqb, Bool.false_eq_true,
          if_false]
      · have hqb : (r.shopify_product_id == qid) = false := by simpa using hq
        simp only [List.map_cons, List.find?, hb, hqb, Bool.false_eq_true,
          if_false]
        exact ih

theorem rowFor_isSome_iff_any (db : ProductDB) (pid : Nat) :
    (rowFor db pid).isSome
      = db.any (fun r => r.shopify_product_id == pid) := by
  induction db with
  | nil => rfl
  | cons r t ih =>
    by_cases hr : r.shopify_product_id = pid
    · have hb : (r.shopify_product_id == pid) = true := by simpa using hr
      simp only [rowFor, List.find?, List.any_cons, hb, Bool.true_or]
      rfl
    · have hb : (r.shopify_product_id == pid) = false := by simpa using hr
      simp only [rowFor, List.find?, List.any_cons, hb, Bool.false_or,
        Bool.false_eq_true, if_false]
      exact ih

/-- Effect of the upsert at the upserted key: the existing row is
conflict-updated, otherwise a fresh row is appended. -/

theorem rowFor_upsertParsed_self (now : Int) (mid : Nat) (d : ParsedProduct)
    (db : ProductDB) :
    rowFor (upsertParsed now mid d db) d.shopify_product_id
      = some (match rowFor db d.shopify_product_id with
              | some r => conflictUpdate now d r
              | none => newRow now mid d) := by
  unfold upsertParsed
  split
  case isTrue hc =>
    have hs : (rowFor db d.shopify_product_id).isSome := by
      rw [rowFor_isSome_iff_any]; exact hc
    rw [rowFor, find?_map_idUpdate db _ (fun r => conflictUpdate_id now d r)]
    rcases ho : rowFor db d.shopify_product_id with _ | r
    · rw [ho] at hs; simp at hs
    · rw [rowFor] at ho; rw [ho]; rfl
  case isFalse hc =>
    have hs : (rowFor db d.shopify_product_id).isSome = false := by
      rw [rowFor_isSome_iff_any]; simpa using hc
    rcases ho : rowFor db d.shopify_product_id with _ | r
    · rw [rowFor, List.find?_append]
      rw [rowFor] at ho; rw [ho]
      have hb : ((newRow now mid d).shopify_product_id
          == d.shopify_product_id) = true := by
        simp [newRow]
      simp [List.find?, hb]
    · rw [ho] at hs; simp at hs

/-- Upserting one payload does not touch the row stored for any other
remote ID. -/

theorem rowFor_upsertParsed_other (now : Int) (mid : Nat) (d : ParsedProduct)
    (db : ProductDB) (qid : Nat) (hne : qid ≠ d.shopify_product_id) :
    rowFor (upsertParsed now mid d db) qid = rowFor db qid := by
  unfold upsertParsed
  split
  · rw [rowFor, find?_map_idUpdate_other db _
      (fun r => conflictUpdate_id now d r) _ _ hne, rowFor]
  · rw [rowFor, List.find?_append, rowFor]
    rcases ho : db.find? (fun r => r.shopify_product_id == qid) with _ | r
    · rw [ho]
      have hb : ((newRow now mid d).shopify_product_id == qid) = false := by
        simp [newRow, Ne.symm hne]
      simp [List.find?, hb]
    · rw [ho]
      rfl

/-- The multiset of stored remote IDs after an upsert. -/

theorem ids_upsertParsed (now : Int) (mid : Nat) (d : ParsedProduct)
    (db : ProductDB) :
    (upsertParsed now mid d db).map (fun r => r.shopify_product_id)
      = if db.any (fun r => r.shopify_product_id == d.shopify_product_id)
        then db.map (fun r => r.shopify_product_id)
        else db.map (fun r => r.shopify_product_id)
          ++ [d.shopify_product_id] := by
  unfold upsertParsed
  split
  case isTrue hc =>
    rw [List.map_map]
    refine List.map_congr_left (fun r _ => ?_)
    by_cases hr : r.shopify_product_id = d.shopify_product_id
    · simp [Function.comp, hr, conflictUpdate]
    · simp [Function.comp, hr]
  case isFalse hc =>
    rw [List.map_append]
    rfl

theorem countId_eq_count_ids (db : ProductDB) (pid : Nat) :
    countId db pid = (db.map (fun r => r.shopify_product_id)).count pid := by
  rw [countId, List.count, List.countP_map]
  rfl

theorem rowFor_upsert_product_self (now : Int) (mid : Nat) (p : Payload)
    (db : ProductDB) :
    rowFor (upsert_product now mid p db) p.id
      = some (match rowFor db p.id with
              | some r => conflictUpdate now (parse_shopify_product p) r
              | none => newRow now mid (parse_shopify_product p)) :=
  rowFor_upsertParsed_self now mid (parse_shopify_product p) db

theorem ids_upsert_product (now : Int) (mid : Nat) (p : Payload)
    (db : ProductDB) :
    (upsert_product now mid p db).map (fun r => r.shopify_product_id)
      = if db.any (fun r => r.shopify_product_id == p.id)
        then db.map (fun r => r.shopify_product_id)
        else db.map (fun r => r.shopify_product_id) ++ [p.id] :=
  ids_upsertParsed now mid (parse_shopify_product p) db

/-- C8: upsert is idempotent.  Under the unique index on
`shopify_product_id`, upserting the identical payload twice leaves
exactly one row for that remote ID, with the same projected fields and
raw payload as after the first call, and a last-synced timestamp that
has not moved backwards. -/

theorem upsert_product_idempotent (now1 now2 : Int) (mid : Nat) (p : Payload)
    (db : ProductDB)
    (hnd : (db.map (fun r => r.shopify_product_id)).Nodup)
    (hle : now1 ≤ now2) :
    countId (upsert_product now2 mid p (upsert_product now1 mid p db)) p.id
        = 1 ∧
    ∃ r1 r2,
      rowFor (upsert_product now1 mid p db) p.id = some r1 ∧
      rowFor (upsert_product now2 mid p (upsert_product now1 mid p db)) p.id
          = some r2 ∧
      r2.title = r1.title ∧ r2.vendor = r1.vendor ∧
      r2.product_type = r1.product_type ∧ r2.handle = r1.handle ∧
      r2.status = r1.status ∧ r2.shopify_created_at = r1.shopify_created_at ∧
      r2.shopify_updated_at = r1.shopify_updated_at ∧
      r2.published_at = r1.published_at ∧ r2.raw_data = r1.raw_data ∧
      r1.synced_at ≤ r2.synced_at := by
  constructor
  · -- exactly one row for p.id after the two upserts
    have hsome1 : (rowFor (upsert_product now1 mid p db) p.id).isSome := by
      rw [rowFor_upsert_product_self]; rfl
    have hany1 : (upsert_product now1 mid p db).any
        (fun r => r.shopify_product_id == p.id) = true := by
      rw [← rowFor_isSome_iff_any]
      exact hsome1
    rw [countId_eq_count_ids, ids_upsert_product, if_pos hany1,
      ids_upsert_product]
    by_cases hmem : db.any (fun r => r.shopify_product_id == p.id) = true
    · rw [if_pos hmem]
      have hmem2 : p.id ∈ db.map (fun r => r.shopify_product_id) := by
        rw [List.any_eq_true] at hmem
        obtain ⟨r, hr, hpr⟩ := hmem
        exact List.mem_map.mpr ⟨r, hr, by simpa using hpr⟩
      have hle1 := List.nodup_iff_count_le_one.mp hnd p.id
      have hge1 := List.count_pos_iff.mpr hmem2
      omega
    · rw [if_neg hmem]
      have hmem2 : p.id ∉ db.map (fun r => r.shopify_product_id) := by
        intro hmm
        refine hmem ?_
        rw [List.any_eq_true]
        obtain ⟨r, hr, hpr⟩ := List.mem_map.mp hmm
        exact ⟨r, hr, by simpa using hpr⟩
      rw [List.count_append, List.count_eq_zero.mpr hmem2]
      simp
  · -- the row after the second call reproduces the first call's content
    rcases ho0 : rowFor db p.id with _ | r0
    · refine ⟨newRow now1 mid (parse_shopify_product p),
        conflictUpdate now2 (parse_shopify_product p)
          (newRow now1 mid (parse_shopify_product p)), ?_, ?_, ?_⟩
      · rw [rowFor_upsert_product_self, ho0]
      · rw [rowFor_upsert_product_self now2 mid p (upsert_product now1 mid p db),
          rowFor_upsert_product_self now1 mid p db, ho0]
      · simp [conflictUpdate, newRow, hle]
    · refine ⟨conflictUpdate now1 (parse_shopify_product p) r0,
        conflictUpdate now2 (parse_shopify_product p)
          (conflictUpdate now1 (parse_shopify_product p) r0), ?_, ?_, ?_⟩
      · rw [rowFor_upsert_product_self, ho0]
      · rw [rowFor_upsert_product_self now2 mid p (upsert_product now1 mid p db),
          rowFor_upsert_product_self now1 mid p db, ho0]
      · simp [conflictUpdate, hle]

/-- Witness for `upsert_product_idempotent`: the double upsert of a
payload into a one-row table. -/

theorem upsert_product_idempotent_witness :
    (List.map (fun r => r.shopify_product_id)
        [newRow 0 3 (parse_shopify_product { id := 2 })]).Nodup ∧
    (countId (upsert_product 6 3 { id := 1, title := some "a" }
        (upsert_product 5 3 { id := 1, title := some "a" }
          [newRow 0 3 (parse_shopify_product { id := 2 })])) 1 = 1 ∧
      ∃ r1 r2,
        rowFor (upsert_product 5 3 { id := 1, title := some "a" }
            [newRow 0 3 (parse_shopify_product { id := 2 })]) 1 = some r1 ∧
        rowFor (upsert_product 6 3 { id := 1, title := some "a" }
            (upsert_product 5 3 { id := 1, title := some "a" }
              [newRow 0 3 (parse_shopify_product { id := 2 })])) 1 = some r2 ∧
        r2.title = r1.title ∧ r2.vendor = r1.vendor ∧
        r2.product_type = r1.product_type ∧ r2.handle = r1.handle ∧
        r2.status = r1.status ∧ r2.shopify_created_at = r1.shopify_created_at ∧
        r2.shopify_updated_at = r1.shopify_updated_at ∧
        r2.published_at = r1.published_at ∧ r2.raw_data = r1.raw_data ∧
        r1.synced_at ≤ r2.synced_at) :=
  ⟨by decide, upsert_product_idempotent 5 6 3 { id := 1, title := some "a" }
    [newRow 0 3 (parse_shopify_product { id := 2 })] (by decide) (by decide)⟩

theorem sync_products_foldl_counts (now : Int) (mid : Nat)
    (items : List SyncItem) :
    ∀ acc : SyncStats × ProductDB,
      (items.foldl (syncStep now mid) acc).1.synced_count
          = acc.1.synced_count + items.countP isGoodItem ∧
      (items.foldl (syncStep now mid) acc).1.failed_count
          = acc.1.failed_count + items.countP (fun i => !(isGoodItem i)) := by
  induction items with
  | nil => intro acc; simp
  | cons item rest ih =>
    intro acc
    rcases item with p | _
    · have h := ih (syncStep now mid acc (.good p))
      simp only [List.foldl_cons, List.countP_cons]
      refine ⟨?_, ?_⟩
      · rw [h.1]
        simp [syncStep, isGoodItem]
        omega
      · rw [h.2]
        simp [syncStep, isGoodItem]
    · have h := ih (syncStep now mid acc .bad)
      simp only [List.foldl_cons, List.countP_cons]
      refine ⟨?_, ?_⟩
      · rw [h.1]
        simp [syncStep, isGoodItem]
      · rw [h.2]
        simp [syncStep, isGoodItem]
        omega

/-- C6: bulk upsert never aborts the batch: for every input list the
loop runs to the end, counting one `synced` per successfully upserted
item and one `failed` per raising item; in particular a 10-item batch
whose fifth item raises reports `synced_count = 9`, `failed_count = 1`
(and, the batch being new, `created_count = 9`). -/

theorem sync_products_batch_resilient (now : Int) (mid : Nat)
    (items : List SyncItem) (db : ProductDB) :
    ((sync_products now mid items db).1.synced_count
        = items.countP isGoodItem ∧
      (sync_products now mid items db).1.failed_count
        = items.countP (fun i => !(isGoodItem i)) ∧
      (sync_products now mid items db).1.synced_count
          + (sync_products now mid items db).1.failed_count
        = items.length) ∧
    (sync_products 0 0
        [.good { id := 1 }, .good { id := 2 }, .good { id := 3 },
          .good { id := 4 }, .bad, .good { id := 6 }, .good { id := 7 },
          .good { id := 8 }, .good { id := 9 }, .good { id := 10 }]
        []).1
      = { synced_count := 9, created_count := 9, updated_count := 0,
          failed_count := 1 } := by
  constructor
  · have h := sync_products_foldl_counts now mid items (⟨0, 0, 0, 0⟩, db)
    rw [sync_products]
    refine ⟨by simpa using h.1, by simpa using h.2, ?_⟩
    have h1 : (items.foldl (syncStep now mid) (⟨0, 0, 0, 0⟩, db)).1.synced_count
        = items.countP isGoodItem := by simpa using h.1
    have h2 : (items.foldl (syncStep now mid) (⟨0, 0, 0, 0⟩, db)).1.failed_count
        = items.countP (fun i => !(isGoodItem i)) := by simpa using h.2
    rw [h1, h2]
    have hlen := List.length_eq_countP_add_countP isGoodItem items
    have hco : items.countP (fun a => !(isGoodItem a))
        = items.countP (fun a => decide ¬ (isGoodItem a = true)) := by
      refine List.countP_congr ?_
      intro a _
      cases h : isGoodItem a <;> simp [h]
    omega
  · decide

/-- C3: the claim says a page-fetch failure partway through the
paginated full-catalog fetch yields status `partial` together with the
first error.  The code contradicts it: the `partial` status assigned in
the HTTP-error handler is dead — after the loop breaks, the final-status
block recomputes `status` from the item-level counters alone, so a run
whose first page (250 items) syncs cleanly and whose second page fetch
raises returns `status = "completed"` with the error field set. -/

theorem fetch_page_failure_reports_completed :
    (fetch_all_products_from_shopify 0 0
        [.ok (List.replicate 250 (SyncItem.good { id := 1 })), .err "boom"]
        []).1.status = "completed" ∧
    (fetch_all_products_from_shopify 0 0
        [.ok (List.replicate 250 (SyncItem.good { id := 1 })), .err "boom"]
        []).1.error = some ("HTTP error: " ++ "boom") ∧
    (fetch_all_products_from_shopify 0 0
        [.ok (List.replicate 250 (SyncItem.good { id := 1 })), .err "boom"]
        []).1.synced_count = 250 := by
  set_option maxRecDepth 100000 in refine ⟨rfl, rfl, rfl⟩

/-- C2: the claim says out-of-sync products are re-upserted with a fresh
full payload, so the stored raw payload reflects the complete remote
representation.  The code instead re-upserts the lightweight
reconciliation payload (`id,title,updated_at` only): after the run the
row's raw payload is the reduced dict — vendor, variants and the other
fields are gone — contradicting the documented "Store complete JSON"
purpose of `raw_data`. -/

theorem reconcile_out_of_sync_stores_reduced_payload :
    (reconcile_products 200 7 false (some [pfullRemote])
        [newRow 0 7 (parse_shopify_product pfullLocal)]).1.out_of_sync_product_ids
      = [1] ∧
    ((rowFor (reconcile_products 200 7 false (some [pfullRemote])
        [newRow 0 7 (parse_shopify_product pfullLocal)]).2 1).map
          (fun r => r.raw_data)
        = some (reconFields pfullRemote) ∧
      (rowFor (reconcile_products 200 7 false (some [pfullRemote])
        [newRow 0 7 (parse_shopify_product pfullLocal)]).2 1).map
          (fun r => r.raw_data)
        ≠ some pfullRemote ∧
      (rowFor (reconcile_products 200 7 false (some [pfullRemote])
        [newRow 0 7 (parse_shopify_product pfullLocal)]).2 1).map
          (fun r => (r.raw_data.vendor, r.raw_data.variants, r.vendor))
        = some (none, [], none)) := by
  decide

/-- C1 counterexample: merchant 7's catalog item 1 was soft-deleted
locally; the remote set is exactly R = level set containing id 1.  After
`reconcile(mark_deleted = true)` the run reports `completed`, yet id 1 —
an element of R — is still not locally active, because the upsert's
conflict-update never clears the soft-delete flag.  So the active local
ID set (∅) differs from R ({1}). -/

theorem reconcile_does_not_reactivate_soft_deleted :
    (reconcile_products 50 7 true (some [{ id := 1 }])
        [{ newRow 0 7 (parse_shopify_product { id := 1 }) with
            is_deleted := 1, deleted_at := some 3 }]).1.status = "completed" ∧
    isActiveFor 7 1 (reconcile_products 50 7 true (some [{ id := 1 }])
        [{ newRow 0 7 (parse_shopify_product { id := 1 }) with
            is_deleted := 1, deleted_at := some 3 }]).2 = false := by
  decide

theorem dictInsert_inv (m : List (Nat × Payload)) (p : Payload)
    (h : mapKeyInv m) : mapKeyInv (dictInsert m p) := by
  unfold dictInsert
  split
  · intro kv hkv
    obtain ⟨kv0, hkv0, heq⟩ := List.mem_map.mp hkv
    by_cases hk : kv0.1 = p.id
    · have hb : (kv0.1 == p.id) = true := by simpa using hk
      simp only [hb, if_true] at heq
      rw [← heq]
      exact hk.symm
    · have hb : (kv0.1 == p.id) = false := by simpa using hk
      simp only [hb, Bool.false_eq_true, if_false] at heq
      rw [← heq]
      exact h kv0 hkv0
  · intro kv hkv
    rcases List.mem_append.mp hkv with hm | hs
    · exact h kv hm
    · have hh : kv = (p.id, p) := by simpa using hs
      rw [hh]

theorem buildProductMap_inv (ps : List Payload) :
    mapKeyInv (buildProductMap ps) := by
  have hgen : ∀ acc, mapKeyInv acc → mapKeyInv (ps.foldl dictInsert acc) := by
    induction ps with
    | nil => intro acc h; exact h
    | cons p t ih =>
      intro acc h
      exact ih _ (dictInsert_inv acc p h)
  refine hgen [] ?_
  intro kv hkv
  simp at hkv

theorem lookupMap_id (m : List (Nat × Payload)) (hinv : mapKeyInv m)
    (k : Nat) (q : Payload) (h : lookupMap m k = some q) : q.id = k := by
  unfold lookupMap at h
  rcases hf : m.find? (fun kv => kv.1 == k) with _ | kv
  · rw [hf] at h
    simp at h
  · rw [hf] at h
    simp only [Option.map_some', Option.some.injEq] at h
    have hmem := List.mem_of_find?_eq_some hf
    have hpred := List.find?_some hf
    have hk : kv.1 = k := by simpa using hpred
    rw [← h, hinv kv hmem, hk]

theorem lookupMap_isSome_iff (m : List (Nat × Payload)) (k : Nat) :
    (lookupMap m k).isSome = true ↔ k ∈ m.map (fun kv => kv.1) := by
  have h1 : (lookupMap m k).isSome
      = (m.find? (fun kv => kv.1 == k)).isSome := by
    unfold lookupMap
    rcases hf : m.find? (fun kv => kv.1 == k) with _ | kv <;> rw [hf] <;> rfl
  rw [h1, List.find?_isSome]
  constructor
  · rintro ⟨kv, hm, hp⟩
    exact List.mem_map.mpr ⟨kv, hm, by simpa using hp⟩
  · intro hmm
    obtain ⟨kv, hm, hk⟩ := List.mem_map.mp hmm
    exact ⟨kv, hm, by simpa using hk⟩

theorem rowFor_upsert_product_other (now : Int) (mid : Nat) (p : Payload)
    (db : ProductDB) (qid : Nat) (hne : qid ≠ p.id) :
    rowFor (upsert_product now mid p db) qid = rowFor db qid :=
  rowFor_upsertParsed_other now mid (parse_shopify_product p) db qid hne

theorem isActiveFor_upsert_self (now : Int) (mid : Nat) (p : Payload)
    (db : ProductDB) :
    isActiveFor mid p.id (upsert_product now mid p db)
      = (isActiveFor mid p.id db || (rowFor db p.id).isNone) := by
  rw [isActiveFor, rowFor_upsert_product_self]
  rcases ho : rowFor db p.id with _ | r
  · rw [isActiveFor, ho]
    simp [newRow]
  · rw [isActiveFor, ho]
    simp [conflictUpdate]

theorem isActiveFor_upsert_other (now : Int) (mid : Nat) (p : Payload)
    (db : ProductDB) (qid : Nat) (hne : qid ≠ p.id) :
    isActiveFor mid qid (upsert_product now mid p db)
      = isActiveFor mid qid db := by
  rw [isActiveFor, rowFor_upsert_product_other now mid p db qid hne,
    isActiveFor]

theorem rowFor_upsert_isSome (now : Int) (mid : Nat) (p : Payload)
    (db : ProductDB) (qid : Nat) (h : (rowFor db qid).isSome = true) :
    (rowFor (upsert_product now mid p db) qid).isSome = true := by
  by_cases hq : qid = p.id
  · subst hq
    rw [rowFor_upsert_product_self]
    rfl
  · rw [rowFor_upsert_product_other now mid p db qid hq]
    exact h

theorem rowFor_mark_self (now : Int) (db : ProductDB) (pid : Nat) :
    rowFor (markRowDeleted now db pid) pid
      = (rowFor db pid).map (markUpd now) :=
  find?_map_idUpdate db (markUpd now) (fun _ => rfl) pid

theorem rowFor_mark_other (now : Int) (db : ProductDB) (pid qid : Nat)
    (hne : qid ≠ pid) :
    rowFor (markRowDeleted now db pid) qid = rowFor db qid :=
  find?_map_idUpdate_other db (markUpd now) (fun _ => rfl) pid qid hne

theorem isActiveFor_mark_self (now : Int) (mid : Nat) (db : ProductDB)
    (pid : Nat) :
    isActiveFor mid pid (markRowDeleted now db pid) = false := by
  rw [isActiveFor, rowFor_mark_self]
  rcases rowFor db pid with _ | r
  · rfl
  · simp [markUpd]

theorem isActiveFor_mark_other (now : Int) (mid : Nat) (db : ProductDB)
    (pid qid : Nat) (hne : qid ≠ pid) :
    isActiveFor mid qid (markRowDeleted now db pid)
      = isActiveFor mid qid db := by
  rw [isActiveFor, rowFor_mark_other now db pid qid hne, isActiveFor]

theorem rowFor_mark_isSome (now : Int) (db : ProductDB) (pid qid : Nat)
    (h : (rowFor db qid).isSome = true) :
    (rowFor (markRowDeleted now db pid) qid).isSome = true := by
  by_cases hq : qid = pid
  · subst hq
    rw [rowFor_mark_self]
    simpa using h
  · rw [rowFor_mark_other now db pid qid hq]
    exact h

theorem isActiveFor_markFold (now : Int) (mid : Nat) (l : List Nat) :
    ∀ (db : ProductDB) (qid : Nat),
      isActiveFor mid qid (l.foldl (markRowDeleted now) db) = true
        ↔ (qid ∉ l ∧ isActiveFor mid qid db = true) := by
  induction l with
  | nil => intro db qid; simp
  | cons a t ih =>
    intro db qid
    rw [List.foldl_cons, ih]
    by_cases hq : qid = a
    · subst hq
      rw [isActiveFor_mark_self]
      simp
    · rw [isActiveFor_mark_other now mid db a qid hq]
      simp [List.mem_cons, hq]

theorem rowFor_markFold_isSome (now : Int) (l : List Nat) :
    ∀ (db : ProductDB) (qid : Nat), (rowFor db qid).isSome = true →
      (rowFor (l.foldl (markRowDeleted now) db) qid).isSome = true := by
  induction l with
  | nil => intro db qid h; exact h
  | cons a t ih =>
    intro db qid h
    rw [List.foldl_cons]
    exact ih _ qid (rowFor_mark_isSome now db a qid h)

theorem rowFor_syncIds_isSome (now : Int) (mid : Nat)
    (m : List (Nat × Payload)) (l : List Nat) :
    ∀ (db : ProductDB) (qid : Nat), (rowFor db qid).isSome = true →
      (rowFor (syncIdsFromMap now mid m l db) qid).isSome = true := by
  induction l with
  | nil => intro db qid h; exact h
  | cons a t ih =>
    intro db qid h
    rw [syncIdsFromMap, List.foldl_cons, ← syncIdsFromMap]
    refine ih _ qid ?_
    unfold syncStepFromMap
    rcases lookupMap m a with _ | p
    · exact h
    · exact rowFor_upsert_isSome now mid p db qid h

/-- Activity after a run of map-driven upserts: an id is active iff it
already was, or it is one of the upserted ids, is found in the map, and
had no stored row at all (then a fresh active row is inserted for the
merchant); a conflict-update never changes activity. -/

theorem isActiveFor_syncIds (now : Int) (mid : Nat)
    (m : List (Nat × Payload)) (hinv : mapKeyInv m) (l : List Nat) :
    ∀ (db : ProductDB) (qid : Nat),
      isActiveFor mid qid (syncIdsFromMap now mid m l db) = true
        ↔ (isActiveFor mid qid db = true ∨
            (qid ∈ l ∧ (lookupMap m qid).isSome = true ∧
              rowFor db qid = none)) := by
  induction l with
  | nil => intro db qid; simp [syncIdsFromMap]
  | cons a t ih =>
    intro db qid
    rw [syncIdsFromMap, List.foldl_cons, ← syncIdsFromMap, ih]
    rcases hlk : lookupMap m a with _ | p
    · have hstep : syncStepFromMap now mid m db a = db := by
        unfold syncStepFromMap
        rw [hlk]
      rw [hstep]
      constructor
      · rintro (h | ⟨hmem, hs, hn⟩)
        · exact Or.inl h
        · exact Or.inr ⟨List.mem_cons_of_mem _ hmem, hs, hn⟩
      · rintro (h | ⟨hmem, hs, hn⟩)
        · exact Or.inl h
        · rcases List.mem_cons.mp hmem with heq | hmem2
          · rw [heq, hlk] at hs
            simp at hs
          · exact Or.inr ⟨hmem2, hs, hn⟩
    · have hpid : p.id = a := lookupMap_id m hinv a p hlk
      have hstep : syncStepFromMap now mid m db a
          = upsert_product now mid p db := by
        unfold syncStepFromMap
        rw [hlk]
      rw [hstep]
      by_cases hq : qid = a
      · subst hq
        have hsome : (rowFor (upsert_product now mid p db) qid).isSome
            = true := by
          conv_lhs => rw [← hpid]
          rw [rowFor_upsert_product_self]
          rfl
        have hact : isActiveFor mid qid (upsert_product now mid p db)
            = (isActiveFor mid qid db || (rowFor db qid).isNone) := by
          conv_lhs => rw [← hpid]
          conv_rhs => rw [← hpid]
          exact isActiveFor_upsert_self now mid p db
        constructor
        · rintro (h | ⟨hmem, hs, hn⟩)
          · rw [hact] at h
            rcases Bool.or_eq_true_iff.mp h with h2 | h2
            · exact Or.inl h2
            · refine Or.inr ⟨List.mem_cons_self qid t, ?_, ?_⟩
              · rw [hlk]; rfl
              · exact Option.isNone_iff_eq_none.mp h2
          · rw [hn] at hsome
            simp at hsome
        · rintro (h | ⟨hmem, hs, hn⟩)
          · refine Or.inl ?_
            rw [hact, h]
            rfl
          · refine Or.inl ?_
            rw [hact, hn]
            simp
      · have hne : qid ≠ p.id := by
          rw [hpid]; exact hq
        rw [isActiveFor_upsert_other now mid p db qid hne,
          rowFor_upsert_product_other now mid p db qid hne]
        constructor
        · rintro (h | ⟨hmem, hs, hn⟩)
          · exact Or.inl h
          · exact Or.inr ⟨List.mem_cons_of_mem _ hmem, hs, hn⟩
        · rintro (h | ⟨hmem, hs, hn⟩)
          · exact Or.inl h
          · rcases List.mem_cons.mp hmem with heq | hmem2
            · exact absurd heq hq
            · exact Or.inr ⟨hmem2, hs, hn⟩

theorem mem_dictInsert_keys (m : List (Nat × Payload)) (p : Payload)
    (k : Nat) :
    k ∈ (dictInsert m p).map (fun kv => kv.1)
      ↔ (k ∈ m.map (fun kv => kv.1) ∨ k = p.id) := by
  unfold dictInsert
  split
  case isTrue hc =>
    have hkeys : (m.map (fun kv =>
        if kv.1 == p.id then (kv.1, p) else kv)).map (fun kv => kv.1)
        = m.map (fun kv => kv.1) := by
      rw [List.map_map]
      refine List.map_congr_left (fun kv _ => ?_)
      by_cases hk : kv.1 = p.id
      · simp [Function.comp, hk]
      · simp [Function.comp, hk]
    rw [hkeys]
    constructor
    · exact Or.inl
    · rintro (h | h)
      · exact h
      · subst h
        rw [List.any_eq_true] at hc
        obtain ⟨kv, hkv, hp⟩ := hc
        exact List.mem_map.mpr ⟨kv, hkv, by simpa using hp⟩
  case isFalse hc =>
    rw [List.map_append]
    simp

theorem mem_buildMap_keys (ps : List Payload) (k : Nat) :
    k ∈ (buildProductMap ps).map (fun kv => kv.1)
      ↔ k ∈ ps.map (fun p => p.id) := by
  have hgen : ∀ acc, k ∈ (ps.foldl dictInsert acc).map (fun kv => kv.1)
      ↔ (k ∈ acc.map (fun kv => kv.1) ∨ k ∈ ps.map (fun p => p.id)) := by
    induction ps with
    | nil => intro acc; simp
    | cons p t ih =>
      intro acc
      rw [List.foldl_cons, ih, mem_dictInsert_keys]
      simp [List.mem_cons]
      tauto
  have := hgen []
  simpa using this

theorem mem_shopifyKeys_iff (sp : List Payload) (k : Nat) :
    k ∈ shopifyKeys sp ↔ k ∈ sp.map (fun p => p.id) :=
  mem_buildMap_keys sp k

theorem mem_activeIds_iff (mid qid : Nat) :
    ∀ db : ProductDB, (db.map (fun r => r.shopify_product_id)).Nodup →
      (qid ∈ activeIds mid db ↔ isActiveFor mid qid db = true) := by
  intro db
  induction db with
  | nil =>
    intro _
    simp [activeIds, activeRows, isActiveFor, rowFor, List.find?]
  | cons r t ih =>
    intro hnd
    rw [List.map_cons, List.nodup_cons] at hnd
    obtain ⟨hhead, hnd2⟩ := hnd
    by_cases hr : r.shopify_product_id = qid
    · have hb : (r.shopify_product_id == qid) = true := by simpa using hr
      have hact : isActiveFor mid qid (r :: t)
          = (r.merchant_id == mid && r.is_deleted == 0) := by
        rw [isActiveFor, rowFor]
        simp [List.find?, hb]
      have hnot : qid ∉ (t.filter (fun r2 =>
          r2.merchant_id == mid && r2.is_deleted == 0)).map
            (fun r2 => r2.shopify_product_id) := by
        intro hmm
        obtain ⟨r2, hr2, hid2⟩ := List.mem_map.mp hmm
        have hmm2 : qid ∈ t.map (fun r2 => r2.shopify_product_id) :=
          List.mem_map.mpr ⟨r2, List.mem_of_mem_filter hr2, hid2⟩
        rw [← hr] at hmm2
        exact hhead hmm2
      rw [hact]
      unfold activeIds activeRows
      by_cases hp : (r.merchant_id == mid && r.is_deleted == 0) = true
      · simp [List.filter_cons, hp, hr]
      · simp only [List.filter_cons, hp, Bool.false_eq_true, if_false]
        constructor
        · intro hmm
          exact absurd hmm hnot
        · intro hfalse
          simp at hfalse
    · have hb : (r.shopify_product_id == qid) = false := by simpa using hr
      have hact : isActiveFor mid qid (r :: t) = isActiveFor mid qid t := by
        unfold isActiveFor rowFor
        simp [List.find?, hb]
      rw [hact, ← ih hnd2]
      unfold activeIds activeRows
      by_cases hp : (r.merchant_id == mid && r.is_deleted == 0) = true
      · simp [List.filter_cons, hp, Ne.symm hr]
      · simp [List.filter_cons, hp]

theorem activeIds_mem_rowFor_isSome (mid : Nat) (db : ProductDB)
    (qid : Nat) (h : qid ∈ activeIds mid db) :
    (rowFor db qid).isSome = true := by
  unfold activeIds activeRows at h
  rw [rowFor, List.find?_isSome]
  obtain ⟨r, hr, hid⟩ := List.mem_map.mp h
  exact ⟨r, List.mem_of_mem_filter hr, by simpa using hid⟩

theorem mem_missingIdsOf (sp : List Payload) (mid : Nat) (db : ProductDB)
    (qid : Nat) :
    qid ∈ missingIdsOf sp mid db
      ↔ (qid ∈ shopifyKeys sp ∧ qid ∉ activeIds mid db) := by
  unfold missingIdsOf
  rw [List.mem_filter]
  simp

theorem mem_deletedIdsOf (sp : List Payload) (mid : Nat) (db : ProductDB)
    (qid : Nat) :
    qid ∈ deletedIdsOf sp mid db
      ↔ (qid ∈ activeIds mid db ∧ qid ∉ shopifyKeys sp) := by
  unfold deletedIdsOf
  rw [List.mem_filter]
  simp

theorem mem_outIdsOf_active (sp : List Payload) (mid : Nat)
    (db : ProductDB) (qid : Nat) (h : qid ∈ outIdsOf sp mid db) :
    qid ∈ activeIds mid db := by
  unfold outIdsOf at h
  have h1 := (List.mem_filter.mp h).1
  have h2 := (List.mem_filter.mp h1).2
  simpa using h2

/-- Activity after `reconcileDb` with `mark_deleted = true`: an id is
active for the merchant iff it is a fetched remote id and either it was
already active or it had no stored row at all. -/

theorem isActiveFor_reconcileDb (now : Int) (mid : Nat) (sp : List Payload)
    (db : ProductDB)
    (hnd : (db.map (fun r => r.shopify_product_id)).Nodup) (qid : Nat) :
    isActiveFor mid qid (reconcileDb now mid true sp db) = true
      ↔ (qid ∈ shopifyKeys sp ∧
          (isActiveFor mid qid db = true ∨ rowFor db qid = none)) := by
  have hinv := buildProductMap_inv sp
  unfold reconcileDb
  set m := buildProductMap sp with hm
  set del := deletedIdsOf sp mid db with hdel
  set db1 := syncIdsFromMap now mid m (missingIdsOf sp mid db) db with hdb1
  set db2 := if (true && !del.isEmpty) = true then
      del.foldl (markRowDeleted now) db1
    else db1 with hdb2def
  have hdb2 : ∀ q, isActiveFor mid q db2 = true
      ↔ (q ∉ del ∧ isActiveFor mid q db1 = true) := by
    intro q
    rw [hdb2def]
    by_cases hde : del.isEmpty
    · rw [if_neg (by simp [hde])]
      have hnil : del = [] := by simpa using hde
      simp [hnil]
    · rw [if_pos (by simp [hde])]
      exact isActiveFor_markFold now mid del db1 q
  have hdb2some : ∀ q, (rowFor db1 q).isSome = true →
      (rowFor db2 q).isSome = true := by
    intro q h
    rw [hdb2def]
    by_cases hde : del.isEmpty
    · rw [if_neg (by simp [hde])]
      exact h
    · rw [if_pos (by simp [hde])]
      exact rowFor_markFold_isSome now del db1 q h
  rw [isActiveFor_syncIds now mid m hinv (outIdsOf sp mid db) db2 qid]
  have hout : qid ∈ outIdsOf sp mid db →
      (rowFor db2 qid).isSome = true := by
    intro h
    refine hdb2some qid ?_
    refine rowFor_syncIds_isSome now mid m (missingIdsOf sp mid db) db qid ?_
    exact activeIds_mem_rowFor_isSome mid db qid (mem_outIdsOf_active sp mid db qid h)
  constructor
  · rintro (h | ⟨hmem, _, hn⟩)
    · obtain ⟨hnd1, hact1⟩ := (hdb2 qid).mp h
      rcases (isActiveFor_syncIds now mid m hinv
          (missingIdsOf sp mid db) db qid).mp hact1 with hA | ⟨hmm, hS, hN⟩
      · refine ⟨?_, Or.inl hA⟩
        by_contra hk
        refine hnd1 ?_
        rw [hdel]
        exact (mem_deletedIdsOf sp mid db qid).mpr
          ⟨(mem_activeIds_iff mid qid db hnd).mpr hA, hk⟩
      · have hmk := (mem_missingIdsOf sp mid db qid).mp hmm
        exact ⟨hmk.1, Or.inr hN⟩
    · have hsome := hout hmem
      rw [hn] at hsome
      simp at hsome
  · rintro ⟨hk, hA | hN⟩
    · refine Or.inl ((hdb2 qid).mpr ⟨?_, ?_⟩)
      · intro hd
        rw [hdel] at hd
        exact ((mem_deletedIdsOf sp mid db qid).mp hd).2 hk
      · exact (isActiveFor_syncIds now mid m hinv
          (missingIdsOf sp mid db) db qid).mpr (Or.inl hA)
    · refine Or.inl ((hdb2 qid).mpr ⟨?_, ?_⟩)
      · intro hd
        rw [hdel] at hd
        have hAct := ((mem_deletedIdsOf sp mid db qid).mp hd).1
        have hsome := activeIds_mem_rowFor_isSome mid db qid hAct
        rw [hN] at hsome
        simp at hsome
      · refine (isActiveFor_syncIds now mid m hinv
          (missingIdsOf sp mid db) db qid).mpr (Or.inr ⟨?_, ?_, hN⟩)
        · refine (mem_missingIdsOf sp mid db qid).mpr ⟨hk, ?_⟩
          intro hAct
          have hsome := activeIds_mem_rowFor_isSome mid db qid hAct
          rw [hN] at hsome
          simp at hsome
        · exact (lookupMap_isSome_iff m qid).mpr hk

/-- C1 (amended): after `reconcile(T, mark_deleted = true)` with a
successful fetch of remote set R, an ID is locally active for T iff it
is in R and either it was already active for T before the run or no
local row for it existed at all.  In particular every active ID is in R,
but an ID of R whose row was soft-deleted (or is owned by another
tenant) stays inactive: the conflict-update of the upsert never clears
the soft-delete flag or reassigns the owner. -/

theorem reconcile_mark_deleted_active_set (now : Int) (mid : Nat)
    (ps : List Payload) (db : ProductDB)
    (hnd : (db.map (fun r => r.shopify_product_id)).Nodup) (qid : Nat) :
    isActiveFor mid qid (reconcile_products now mid true (some ps) db).2
        = true
      ↔ (qid ∈ ps.map (fun p => p.id) ∧
          (isActiveFor mid qid db = true ∨ rowFor db qid = none)) := by
  have hsnd : (reconcile_products now mid true (some ps) db).2
      = reconcileDb now mid true (ps.map reconFields) db := rfl
  rw [hsnd, isActiveFor_reconcileDb now mid (ps.map reconFields) db hnd qid]
  have hkeys : qid ∈ shopifyKeys (ps.map reconFields)
      ↔ qid ∈ ps.map (fun p => p.id) := by
    rw [mem_shopifyKeys_iff, List.map_map]
    exact Iff.rfl
  rw [hkeys]

/-- Witness for `reconcile_mark_deleted_active_set`: a one-product
remote catalog reconciled into an empty table. -/

theorem reconcile_mark_deleted_active_set_witness :
    isActiveFor 5 9 (reconcile_products 1 5 true
        (some [{ id := 9 }]) []).2 = true
      ↔ (9 ∈ ([{ id := 9 }] : List Payload).map (fun p => p.id) ∧
          (isActiveFor 5 9 ([] : ProductDB) = true ∨
            rowFor ([] : ProductDB) 9 = none)) :=
  reconcile_mark_deleted_active_set 1 5 [{ id := 9 }] [] (by decide) 9

/-- C10: under a fixed key (a cipher whose decryption inverts its
encryption, Fernet's contract), `decrypt (encrypt p) = p` for every
non-empty `p` whose ciphertext is non-empty (Fernet ciphertexts never
are); and for the empty string both operations return their input
unchanged for EVERY cipher — i.e. without invoking it — so an empty
credential round-trips as empty and is stored unencrypted rather than
raising. -/

theorem encrypt_decrypt_roundtrip (c : TokenCipher) (p : String)
    (hp : p ≠ "") (henc : c.enc p ≠ "") (hrt : c.dec (c.enc p) = some p) :
    TokenEncryption.decrypt c (TokenEncryption.encrypt c p)
        = Except.ok p ∧
      (∀ c2 : TokenCipher, TokenEncryption.encrypt c2 "" = "" ∧
        TokenEncryption.decrypt c2 "" = Except.ok "") := by
  constructor
  · rw [TokenEncryption.encrypt, if_neg hp, TokenEncryption.decrypt,
      if_neg henc, hrt]
  · intro c2
    exact ⟨rfl, rfl⟩

/-- Witness for `encrypt_decrypt_roundtrip`: the identity cipher on the
token "tok". -/

theorem encrypt_decrypt_roundtrip_witness :
    TokenEncryption.decrypt ⟨fun s => s, fun s => some s⟩
        (TokenEncryption.encrypt ⟨fun s => s, fun s => some s⟩ "tok")
        = Except.ok "tok" ∧
      (∀ c2 : TokenCipher, TokenEncryption.encrypt c2 "" = "" ∧
        TokenEncryption.decrypt c2 "" = Except.ok "") :=
  encrypt_decrypt_roundtrip ⟨fun s => s, fun s => some s⟩ "tok"
    (by decide) (by decide) rfl

theorem mem_insertSorted (le : α → α → Bool) (x a : α) :
    ∀ l, a ∈ insertSorted le x l ↔ a = x ∨ a ∈ l := by
  intro l
  induction l with
  | nil => simp [insertSorted]
  | cons y ys ih =>
    unfold insertSorted
    by_cases h : le x y = true
    · rw [if_pos h]
      simp [List.mem_cons]
    · rw [if_neg h]
      simp only [List.mem_cons, ih]
      tauto

theorem mem_sortBy (le : α → α → Bool) (a : α) :
    ∀ l, a ∈ sortBy le l ↔ a ∈ l := by
  intro l
  induction l with
  | nil => simp [sortBy]
  | cons x xs ih =>
    unfold sortBy at ih ⊢
    rw [List.foldr_cons, mem_insertSorted]
    rw [ih]
    simp [List.mem_cons]

theorem insertSorted_congr (le1 le2 : α → α → Bool) (x : α) :
    ∀ l, (∀ b ∈ l, le1 x b = le2 x b) →
      insertSorted le1 x l = insertSorted le2 x l := by
  intro l
  induction l with
  | nil => intro _; rfl
  | cons y ys ih =>
    intro h
    unfold insertSorted
    rw [h y (List.mem_cons_self y ys)]
    by_cases h2 : le2 x y = true
    · rw [if_pos h2, if_pos h2]
    · rw [if_neg h2, if_neg h2,
        ih (fun b hb => h b (List.mem_cons_of_mem y hb))]

theorem sortBy_congr (le1 le2 : α → α → Bool) :
    ∀ l, (∀ a ∈ l, ∀ b ∈ l, le1 a b = le2 a b) →
      sortBy le1 l = sortBy le2 l := by
  intro l
  induction l with
  | nil => intro _; rfl
  | cons x xs ih =>
    intro h
    have hxs : sortBy le1 xs = sortBy le2 xs :=
      ih (fun a ha b hb =>
        h a (List.mem_cons_of_mem x ha) b (List.mem_cons_of_mem x hb))
    unfold sortBy at hxs ⊢
    rw [List.foldr_cons, List.foldr_cons, hxs]
    refine insertSorted_congr le1 le2 x _ ?_
    intro b hb
    have hbxs : b ∈ xs := by
      have hmem := mem_sortBy le2 b xs
      unfold sortBy at hmem
      exact hmem.mp hb
    exact h x (List.mem_cons_self x xs) b (List.mem_cons_of_mem x hbxs)

theorem map_fst_insertSorted (x : String × String) :
    ∀ l, (insertSorted keyLe x l).map (fun kv => kv.1)
      = insertSorted (fun a b => decide (a ≤ b)) x.1
          (l.map (fun kv => kv.1)) := by
  intro l
  induction l with
  | nil => rfl
  | cons y ys ih =>
    unfold insertSorted
    by_cases h : keyLe x y = true
    · have h2 : (decide (x.1 ≤ y.1)) = true := h
      rw [if_pos h]
      simp only [List.map_cons]
      rw [if_pos h2]
    · have h2 : ¬ (decide (x.1 ≤ y.1)) = true := h
      rw [if_neg h]
      simp only [List.map_cons]
      rw [if_neg h2, ih]

theorem map_fst_sortBy :
    ∀ l : List (String × String),
      (sortBy keyLe l).map (fun kv => kv.1)
        = sortBy (fun a b => decide (a ≤ b)) (l.map (fun kv => kv.1)) := by
  intro l
  induction l with
  | nil => rfl
  | cons x xs ih =>
    unfold sortBy at ih ⊢
    rw [List.foldr_cons, List.map_cons, List.foldr_cons,
      map_fst_insertSorted, ih]

theorem eq_of_mem_keys_nodup :
    ∀ l : List (String × String), (l.map (fun kv => kv.1)).Nodup →
      ∀ a ∈ l, ∀ b ∈ l, a.1 = b.1 → a = b := by
  intro l
  induction l with
  | nil =>
    intro _ a ha
    simp at ha
  | cons r t ih =>
    intro hnd a ha b hb hab
    rw [List.map_cons, List.nodup_cons] at hnd
    obtain ⟨hh, hnd2⟩ := hnd
    rcases List.mem_cons.mp ha with rfl | ha2
    · rcases List.mem_cons.mp hb with rfl | hb2
      · rfl
      · exfalso
        refine hh ?_
        rw [hab]
        exact List.mem_map.mpr ⟨b, hb2, rfl⟩
    · rcases List.mem_cons.mp hb with rfl | hb2
      · exfalso
        refine hh ?_
        rw [← hab]
        exact List.mem_map.mpr ⟨a, ha2, rfl⟩
      · exact ih hnd2 a ha2 b hb2 hab

theorem paramsLookup_of_mem :
    ∀ params : List (String × String),
      (params.map (fun kv => kv.1)).Nodup →
      ∀ kv ∈ params, paramsLookup params kv.1 = some kv.2 := by
  intro params
  induction params with
  | nil =>
    intro _ kv h
    simp at h
  | cons r t ih =>
    intro hnd kv hkv
    rw [List.map_cons, List.nodup_cons] at hnd
    obtain ⟨hhead, hnd2⟩ := hnd
    rcases List.mem_cons.mp hkv with rfl | hkv2
    · unfold paramsLookup
      simp [List.find?]
    · have hne : r.1 ≠ kv.1 := by
        intro he
        refine hhead ?_
        rw [he]
        exact List.mem_map.mpr ⟨kv, hkv2, rfl⟩
      have hb : (r.1 == kv.1) = false := by simpa using hne
      unfold paramsLookup
      simp only [List.find?, hb, Bool.false_eq_true, if_false]
      have := ih hnd2 kv hkv2
      unfold paramsLookup at this
      exact this

theorem map_fst_filter_hmac :
    ∀ params : List (String × String),
      (params.filter (fun kv => !(kv.1 == "hmac"))).map (fun kv => kv.1)
        = (params.map (fun kv => kv.1)).filter (fun k => !(k == "hmac")) := by
  intro params
  induction params with
  | nil => rfl
  | cons r t ihp =>
    simp only [List.filter_cons, List.map_cons]
    by_cases hr : (!(r.1 == "hmac")) = true
    · rw [if_pos hr, if_pos hr, List.map_cons, ihp]
    · rw [if_neg hr, if_neg hr, ihp]

/-- The two canonicalizations agree when the parameter keys are unique
(as dict keys are). -/

theorem sourceCanonicalString_eq_spec (params : List (String × String))
    (hnd : (params.map (fun kv => kv.1)).Nodup) :
    sourceCanonicalString params = specCanonicalString params := by
  unfold sourceCanonicalString specCanonicalString
  have hndc : ((params.filter (fun kv => !(kv.1 == "hmac"))).map
      (fun kv => kv.1)).Nodup :=
    List.Nodup.sublist (List.Sublist.map _ (List.filter_sublist params)) hnd
  have hagree : ∀ a ∈ params.filter (fun kv => !(kv.1 == "hmac")),
      ∀ b ∈ params.filter (fun kv => !(kv.1 == "hmac")),
      pairLe a b = keyLe a b := by
    intro a ha b hb
    by_cases hab : a.1 = b.1
    · have hasame : a = b := eq_of_mem_keys_nodup _ hndc a ha b hb hab
      subst hasame
      simp [pairLe, keyLe]
    · unfold pairLe keyLe
      have hiff : (a.1 ≤ b.1) ↔ (a.1 < b.1) := by
        constructor
        · intro h
          rcases lt_or_eq_of_le h with h2 | h2
          · exact h2
          · exact absurd h2 hab
        · exact le_of_lt
      by_cases hlt : a.1 < b.1
      · simp [hlt, hiff.mpr hlt, hab]
      · have hgt : b.1 < a.1 :=
          lt_of_le_of_ne (not_lt.mp hlt) (fun he => hab he.symm)
        have hnle : ¬ (a.1 ≤ b.1) := not_le.mpr hgt
        simp [hlt, hab, hnle]
  rw [sortBy_congr pairLe keyLe _ hagree]
  have hmapeq : (sortBy keyLe
        (params.filter (fun kv => !(kv.1 == "hmac")))).map
          (fun kv => kv.1 ++ "=" ++ pythonQuote kv.2)
      = ((sortBy keyLe (params.filter (fun kv => !(kv.1 == "hmac")))).map
          (fun kv => kv.1)).map (fun k =>
            k ++ "=" ++ pythonQuote ((paramsLookup params k).getD "")) := by
    rw [List.map_map]
    refine List.map_congr_left ?_
    intro kv hkv
    have hkvc : kv ∈ params.filter (fun kv => !(kv.1 == "hmac")) :=
      (mem_sortBy keyLe kv _).mp hkv
    have hkvp : kv ∈ params := List.mem_of_mem_filter hkvc
    have hlook := paramsLookup_of_mem params hnd kv hkvp
    simp [Function.comp, hlook]
  rw [hmapeq, map_fst_sortBy, map_fst_filter_hmac]

/-- C4: OAuth callback signature verification returns true iff the
provided signature equals the HMAC-SHA256 hex digest — under the shared
secret — of the canonical string built exactly as the spec words it
(drop the signature field, URL-encode each value, sort keys
lexicographically, join key=value with '&'); with no signature parameter
it returns false.  Quantified over the abstract HMAC function, so the
equivalence is purely about the canonicalization; `compare_digest` is
modelled as equality (constant-time execution is not statable in this
embedding). -/

theorem verify_hmac_iff_spec (hmacHex : String → String → String)
    (secret : String) (params : List (String × String))
    (hnd : (params.map (fun kv => kv.1)).Nodup) :
    (verify_hmac hmacHex secret params = true
      ↔ ∃ sig, paramsLookup params "hmac" = some sig ∧
          sig = hmacHex secret (specCanonicalString params)) ∧
    (paramsLookup params "hmac" = none →
      verify_hmac hmacHex secret params = false) := by
  rcases hlk : paramsLookup params "hmac" with _ | sig
  · constructor
    · constructor
      · intro h
        unfold verify_hmac at h
        rw [hlk] at h
        simp at h
      · rintro ⟨sig, hsig, _⟩
        exact absurd hsig (by simp)
    · intro _
      unfold verify_hmac
      rw [hlk]
  · have hv : verify_hmac hmacHex secret params
        = (hmacHex secret (specCanonicalString params) == sig) := by
      unfold verify_hmac
      rw [hlk, sourceCanonicalString_eq_spec params hnd]
    constructor
    · rw [hv]
      constructor
      · intro h
        exact ⟨sig, rfl, (beq_iff_eq.mp h).symm⟩
      · rintro ⟨sig2, hsig2, heq⟩
        rw [Option.some.injEq] at hsig2
        rw [← hsig2] at heq
        exact beq_iff_eq.mpr heq.symm
    · intro h
      simp at h

/-- Witness for `verify_hmac_iff_spec`: a three-parameter callback with
a toy hash function. -/

theorem verify_hmac_iff_spec_witness :
    (verify_hmac (fun s m => s ++ "#" ++ m) "sec"
        [("code", "c1"), ("hmac", "SIG"), ("shop", "x y")] = true
      ↔ ∃ sig, paramsLookup
          [("code", "c1"), ("hmac", "SIG"), ("shop", "x y")] "hmac"
            = some sig ∧
          sig = (fun s m => s ++ "#" ++ m) "sec"
            (specCanonicalString
              [("code", "c1"), ("hmac", "SIG"), ("shop", "x y")])) ∧
    (paramsLookup [("code", "c1"), ("hmac", "SIG"), ("shop", "x y")]
        "hmac" = none →
      verify_hmac (fun s m => s ++ "#" ++ m) "sec"
        [("code", "c1"), ("hmac", "SIG"), ("shop", "x y")] = false) :=
  verify_hmac_iff_spec (fun s m => s ++ "#" ++ m) "sec"
    [("code", "c1"), ("hmac", "SIG"), ("shop", "x y")] (by decide)

/-- C5: OAuth completion rejects any request whose (parsed) timestamp
differs from the current time by more than 300 seconds — regardless of
signature validity, with the store table unchanged — and a request
within the window is never rejected for timestamp expiry; at the
boundary, 301 seconds is rejected and 299 seconds passes the timestamp
check (the witness instantiates both). -/

theorem complete_oauth_timestamp_window
    (hmacHex : String → String → String) (secret : String) (now : Int)
    (exchange : Except String TokenData) (input : OAuthComplete)
    (db : List StoreRow) (ts : Int)
    (hts : pythonInt input.timestamp = some ts) :
    ((now - ts).natAbs > 300 →
      complete_oauth hmacHex secret now exchange input db
        = (.error .timestampExpired, db)) ∧
    ((now - ts).natAbs ≤ 300 →
      (complete_oauth hmacHex secret now exchange input db).1
        ≠ .error .timestampExpired) := by
  constructor
  · intro h
    unfold complete_oauth
    simp only [hts]
    rw [if_pos h]
  · intro h
    unfold complete_oauth
    simp only [hts]
    rw [if_neg (by omega)]
    split
    · intro hx
      simp at hx
    · split
      · intro hx
        simp at hx
      · rcases exchange with msg | td
        · intro hx
          simp only [] at hx
          unfold classifyExchangeError at hx
          split at hx <;> simp at hx
        · intro hx
          simp at hx

/-- Witness for `complete_oauth_timestamp_window`: a request stamped at
time 0 with a bogus signature, judged at time 301 (rejected for expiry,
state unchanged) and at time 299 (passes the timestamp gate — it then
fails on the signature instead, not on expiry). -/

theorem complete_oauth_timestamp_window_witness :
    (((301 : Int) - 0).natAbs > 300 →
      complete_oauth (fun _ m => m) "s" 301 (.error "e")
        ⟨"c", "shop.example", "m1", "SIG", "0", none⟩ []
        = (.error .timestampExpired, [])) ∧
    (((299 : Int) - 0).natAbs ≤ 300 →
      (complete_oauth (fun _ m => m) "s" 299 (.error "e")
        ⟨"c", "shop.example", "m1", "SIG", "0", none⟩ []).1
        ≠ .error .timestampExpired) :=
  ⟨(complete_oauth_timestamp_window (fun _ m => m) "s" 301 (.error "e")
      ⟨"c", "shop.example", "m1", "SIG", "0", none⟩ [] 0 (by decide)).1,
    (complete_oauth_timestamp_window (fun _ m => m) "s" 299 (.error "e")
      ⟨"c", "shop.example", "m1", "SIG", "0", none⟩ [] 0 (by decide)).2⟩

theorem updateFirst_find? (p : α → Bool) (f : α → α) :
    ∀ (l : List α) (w : α), l.find? p = some w →
      ∃ i : Nat, l[i]? = some w ∧
        (updateFirst p f l)[i]? = some (f w) ∧
        ∀ j : Nat, j ≠ i → (updateFirst p f l)[j]? = l[j]? := by
  intro l
  induction l with
  | nil =>
    intro w h
    simp [List.find?] at h
  | cons x xs ih =>
    intro w h
    by_cases hp : p x = true
    · have hw : x = w := by
        simp only [List.find?, hp] at h
        exact Option.some.inj h
      refine ⟨0, by simp [hw], ?_, ?_⟩
      · unfold updateFirst
        rw [if_pos hp]
        simp [hw]
      · intro j hj
        unfold updateFirst
        rw [if_pos hp]
        rcases j with _ | j2
        · exact absurd rfl hj
        · simp
    · have h2 : xs.find? p = some w := by
        simp only [List.find?, hp, Bool.false_eq_true, if_false] at h
        exact h
      obtain ⟨i, hi1, hi2, hi3⟩ := ih w h2
      refine ⟨i + 1, by simpa using hi1, ?_, ?_⟩
      · unfold updateFirst
        rw [if_neg hp]
        simpa using hi2
      · intro j hj
        unfold updateFirst
        rw [if_neg hp]
        rcases j with _ | j2
        · simp
        · have hne : j2 ≠ i := by omega
          have := hi3 j2 hne
          simpa using this

/-- C7: the self-healing branch of the registration loop: when an active
local record exists for the topic but Shopify no longer has a webhook
with that record's remote ID (404), and re-creation succeeds with a new
remote ID, the per-topic result is action `recreated` with status
`success` carrying the new ID, and the same local record — same position
in the table — now holds the new remote ID, the configured address, the
active flag and a fresh verification timestamp, all other rows
untouched. -/

theorem register_webhook_topic_recreates (now : Int) (api : WebhookApi)
    (store_id : Nat) (tenant_id : String) (topic address fmt : String)
    (db : List WebhookRow) (w : WebhookRow) (newId : Nat)
    (hfind : db.find? (webhookActiveMatch store_id topic) = some w)
    (hgone : api.getById w.shopify_webhook_id = Except.ok none)
    (hcreate : api.create topic address = Except.ok newId) :
    (register_webhook_topic now api store_id tenant_id topic address fmt
        db).1
      = ⟨topic, "recreated", "success", some newId, none⟩ ∧
    ∃ i : Nat, db[i]? = some w ∧
      (register_webhook_topic now api store_id tenant_id topic address
          fmt db).2[i]?
        = some { w with
            shopify_webhook_id := newId
            address := address
            is_active := 1
            last_verified_at := some now } ∧
      ∀ j : Nat, j ≠ i →
        (register_webhook_topic now api store_id tenant_id topic address
            fmt db).2[j]? = db[j]? := by
  have hred : register_webhook_topic now api store_id tenant_id topic
      address fmt db
      = (⟨topic, "recreated", "success", some newId, none⟩,
        updateFirst (webhookActiveMatch store_id topic) (fun r =>
          { r with
            shopify_webhook_id := newId
            address := address
            is_active := 1
            last_verified_at := some now }) db) := by
    unfold register_webhook_topic
    rw [hfind]
    simp only []
    rw [hgone]
    simp only []
    rw [hcreate]
  rw [hred]
  refine ⟨rfl, ?_⟩
  exact updateFirst_find? (webhookActiveMatch store_id topic) _ db w hfind

/-- Witness for `register_webhook_topic_recreates`: a one-row table
whose remote webhook 99 is gone; the API recreates it as 120. -/

theorem register_webhook_topic_recreates_witness :
    (register_webhook_topic 7
        ⟨fun _ => Except.ok none, fun _ => Except.ok none,
          fun _ _ => Except.ok 120, fun _ _ _ => Except.ok ()⟩
        1 "m1" "products/update" "https://app/api/webhooks/products/update"
        "json"
        [⟨1, "m1", 99, "products/update", "https://old/addr", "json", 1,
          some 0⟩]).1
      = ⟨"products/update", "recreated", "success", some 120, none⟩ ∧
    ∃ i : Nat,
      [(⟨1, "m1", 99, "products/update", "https://old/addr", "json", 1,
          some 0⟩ : WebhookRow)][i]?
        = some ⟨1, "m1", 99, "products/update", "https://old/addr",
            "json", 1, some 0⟩ ∧
      (register_webhook_topic 7
          ⟨fun _ => Except.ok none, fun _ => Except.ok none,
            fun _ _ => Except.ok 120, fun _ _ _ => Except.ok ()⟩
          1 "m1" "products/update"
          "https://app/api/webhooks/products/update" "json"
          [⟨1, "m1", 99, "products/update", "https://old/addr", "json",
            1, some 0⟩]).2[i]?
        = some { (⟨1, "m1", 99, "products/update", "https://old/addr",
              "json", 1, some 0⟩ : WebhookRow) with
            shopify_webhook_id := 120
            address := "https://app/api/webhooks/products/update"
            is_active := 1
            last_verified_at := some 7 } ∧
      ∀ j : Nat, j ≠ i →
        (register_webhook_topic 7
            ⟨fun _ => Except.ok none, fun _ => Except.ok none,
              fun _ _ => Except.ok 120, fun _ _ _ => Except.ok ()⟩
            1 "m1" "products/update"
            "https://app/api/webhooks/products/update" "json"
            [⟨1, "m1", 99, "products/update", "https://old/addr", "json",
              1, some 0⟩]).2[j]?
          = [(⟨1, "m1", 99, "products/update", "https://old/addr",
              "json", 1, some 0⟩ : WebhookRow)][j]? :=
  register_webhook_topic_recreates 7
    ⟨fun _ => Except.ok none, fun _ => Except.ok none,
      fun _ _ => Except.ok 120, fun _ _ _ => Except.ok ()⟩
    1 "m1" "products/update" "https://app/api/webhooks/products/update"
    "json"
    [⟨1, "m1", 99, "products/update", "https://old/addr", "json", 1,
      some 0⟩]
    ⟨1, "m1", 99, "products/update", "https://old/addr", "json", 1,
      some 0⟩
    120 (by decide) rfl rfl

end ShopifySync
